import Mathlib

/-!
KinectDevice acquisition bridge (rgbd_kinect.cc)

A shallow embedding of the class `KinectDevice` of `src/rgbd_kinect.cc`:
the two frame slots with their freshness flags, the producer callbacks
`videoCB` / `depthCB`, the consumer call `grabFrames`, the event pump `loop`,
and the lifecycle operations `init` / `shutdown`.

Conventions of the embedding.

* A `cv::Mat` is a value: its dimensions, its element type code and its
  elements in row-major order.  `clone()` is a deep copy, so on values it is
  the identity.
* A raw driver buffer (`void*`) is read through a function from the element
  index to the element stored there.
* The driver (libfreenect) is not part of the repository.  Every value a
  driver call returns is an input of the model (`DriverOutcomes`,
  `ProcessOutcome`), and every call the code makes is recorded, in order, in
  a trace of `Action`s.
* The two mutexes serialise the bodies they guard; the embedding is
  sequential, so they carry no state.
-/

namespace Kinect

/-! ## Matrices -/

/-- A raw buffer handed over by the driver: element index to element. -/
abbrev RawBuf := Nat → Nat

/-- The value of a `cv::Mat`: `rows`, `cols`, the OpenCV type code and the
elements in row-major order, channels interleaved. -/
structure Mat where
  rows : Nat
  cols : Nat
  type : Nat
  data : List Nat
  deriving DecidableEq, Repr

/-- OpenCV type code `CV_8UC3` (depth `CV_8U = 0`, three channels). -/
def CV_8UC3 : Nat := 16

/-- OpenCV type code `CV_16UC1` (depth `CV_16U = 2`, one channel). -/
def CV_16UC1 : Nat := 2

/-- Number of channels of a type code (`CV_MAT_CN`). -/
def channels (type : Nat) : Nat := type / 8 + 1

/-- The default-constructed `Mat()`: no rows, no columns, no data. -/
def Mat.empty : Mat := ⟨0, 0, 0, []⟩

/-- The header `Mat(rows, cols, type, ptr)` over a raw buffer: it views the
first `rows * cols * channels` elements behind the pointer. -/
def Mat.ofRaw (rows cols type : Nat) (ptr : RawBuf) : Mat :=
  ⟨rows, cols, type, (List.range (rows * cols * channels type)).map ptr⟩

/-- The deep copy `m.clone()`. -/
def Mat.clone (m : Mat) : Mat := m

/-- Exchange of the first and third channel in a stream of three-channel
pixels. -/
def swapRB : List Nat → List Nat
  | r :: g :: b :: rest => b :: g :: r :: swapRB rest
  | _ => []

/-- The call `cvtColor(src, dst, COLOR_RGB2BGR)` on a three-channel source:
the destination is (re)created with the size and type of the source and every
pixel is written with its first and third channel exchanged. -/
def cvtColor_RGB2BGR (src : Mat) : Mat :=
  ⟨src.rows, src.cols, src.type, swapRB src.data⟩

/-! ## The object -/

/-- A pointer field of the object: null, or the handle the driver returned. -/
inductive Ptr where
  | nullptr
  | handle
  deriving DecidableEq, Repr

/-- Program points of `KinectDevice::loop`: at the stop check that opens an
iteration, at the call of `freenect_process_events`, at the sleep that closes
an iteration, and after the `while`. -/
inductive PumpPc where
  | check
  | process
  | sleep
  | exited
  deriving DecidableEq, Repr

/-- A `std::thread` object: `none` when it owns no thread of execution
(default-constructed, or joined), `some pc` when it owns the thread that runs
`loop` and stands at `pc`.  It is joinable exactly when it is `some`. -/
abbrev Thread := Option PumpPc

/-- The data members of `KinectDevice` (the two mutexes carry no state). -/
structure KinectDevice where
  ctx : Ptr
  dev : Ptr
  rgb_ : Mat
  depth_ : Mat
  new_rgb : Bool
  new_depth : Bool
  worker : Thread
  stop_thread : Bool
  deriving DecidableEq, Repr

/-- The constructor `KinectDevice()`. -/
def KinectDevice.new : KinectDevice :=
  { ctx := .nullptr, dev := .nullptr, rgb_ := Mat.empty, depth_ := Mat.empty,
    new_rgb := false, new_depth := false, worker := none, stop_thread := false }

/-! ## Consumer side: `grabFrames` -/

/-- What a call of `grabFrames(rgb, depth)` leaves behind: the returned
boolean, the object, and the two reference arguments. -/
structure GrabResult where
  ret : Bool
  self : KinectDevice
  rgb : Mat
  depth : Mat
  deriving DecidableEq, Repr

/-- The method `KinectDevice::grabFrames`. -/
def grabFrames (self : KinectDevice) (rgb depth : Mat) : GrabResult :=
  if self.new_rgb && self.new_depth then
    { ret := true
      self := { self with new_rgb := false, new_depth := false }
      rgb := self.rgb_.clone
      depth := self.depth_.clone }
  else
    { ret := false, self := self, rgb := rgb, depth := depth }

/-! ## Producer side: the callbacks -/

/-- The static callback `KinectDevice::videoCB`.  `user` is the pointer
`freenect_get_user(d)` returns: null, or (`handle`) the object `self`. -/
def videoCB (user : Ptr) (self : KinectDevice) (rgb : RawBuf) : KinectDevice :=
  match user with
  | .nullptr => self
  | .handle =>
    let tmp := Mat.ofRaw 480 640 CV_8UC3 rgb
    { self with rgb_ := cvtColor_RGB2BGR tmp, new_rgb := true }

/-- The static callback `KinectDevice::depthCB`, with `user` as in
`videoCB`. -/
def depthCB (user : Ptr) (self : KinectDevice) (depth : RawBuf) : KinectDevice :=
  match user with
  | .nullptr => self
  | .handle =>
    let tmp := Mat.ofRaw 480 640 CV_16UC1 depth
    { self with depth_ := tmp.clone, new_depth := true }

/-- One invocation of a producer callback by the driver, with the raw buffer
it passes. -/
inductive Callback where
  | video (buf : RawBuf)
  | depth (buf : RawBuf)

/-- Dispatch of one callback invocation. -/
def Callback.run (user : Ptr) (self : KinectDevice) : Callback → KinectDevice
  | .video buf => videoCB user self buf
  | .depth buf => depthCB user self buf

/-- A finite sequence of callback invocations, in order. -/
def runCallbacks (user : Ptr) (self : KinectDevice) (cbs : List Callback) : KinectDevice :=
  cbs.foldl (Callback.run user) self

/-- The buffer of the last `videoCB` invocation of a sequence, if any. -/
def lastVideo : List Callback → Option RawBuf
  | [] => none
  | .video buf :: rest => (lastVideo rest).orElse (fun _ => some buf)
  | .depth _ :: rest => lastVideo rest

/-- The buffer of the last `depthCB` invocation of a sequence, if any. -/
def lastDepth : List Callback → Option RawBuf
  | [] => none
  | .depth buf :: rest => (lastDepth rest).orElse (fun _ => some buf)
  | .video _ :: rest => lastDepth rest

/-! ## Frame contents, stated element by element -/

/-- The matrix `m` is the 480x640 three-channel 8-bit frame whose every pixel
is the pixel of the raw buffer with first and third channel exchanged. -/
def IsBGROf (m : Mat) (buf : RawBuf) : Prop :=
  m.rows = 480 ∧ m.cols = 640 ∧ m.type = CV_8UC3 ∧ m.data.length = 480 * 640 * 3 ∧
  ∀ p, p < 480 * 640 →
    m.data[3 * p]? = some (buf (3 * p + 2)) ∧
    m.data[3 * p + 1]? = some (buf (3 * p + 1)) ∧
    m.data[3 * p + 2]? = some (buf (3 * p))

/-- The matrix `m` is the 480x640 one-channel 16-bit frame holding the
elements of the raw buffer one for one. -/
def IsRawDepthOf (m : Mat) (buf : RawBuf) : Prop :=
  m.rows = 480 ∧ m.cols = 640 ∧ m.type = CV_16UC1 ∧ m.data.length = 480 * 640 ∧
  ∀ i, i < 480 * 640 → m.data[i]? = some (buf i)

/-! ## Driver calls and the system state -/

/-- The observable actions of the program, in the order of the source: the
driver calls (with the value the driver returned, where the code reads it),
the thread operations, and the program points of the event pump. -/
inductive Action where
  | freenect_init (ret : Int)
  | freenect_set_log_level
  | freenect_num_devices (ret : Int)
  | freenect_open_device (ret : Int)
  | freenect_set_user
  | freenect_find_video_mode (is_valid : Bool)
  | freenect_set_video_mode
  | freenect_find_depth_mode (is_valid : Bool)
  | freenect_set_depth_mode
  | freenect_set_video_callback
  | freenect_set_depth_callback
  | freenect_start_video (ret : Int)
  | freenect_start_depth (ret : Int)
  | thread_start
  | terminate
  | set_stop
  | join
  | freenect_stop_video
  | freenect_stop_depth
  | freenect_close_device
  | freenect_shutdown
  | check_stop (observed : Bool)
  | freenect_process_events (ret : Int)
  | sleep
  deriving DecidableEq, Repr

/-- What the driver answers to the calls of `init`. -/
structure DriverOutcomes where
  freenect_init : Int
  freenect_num_devices : Int
  freenect_open_device : Int
  video_mode_valid : Bool
  depth_mode_valid : Bool
  freenect_start_video : Int
  freenect_start_depth : Int
  deriving DecidableEq, Repr

/-- What one call of `freenect_process_events` does: the producer callbacks
it runs, in order, and the value it returns. -/
structure ProcessOutcome where
  ret : Int
  callbacks : List Callback

/-- The object together with the trace of all actions so far, of both
threads, in the order they happened. -/
structure System where
  self : KinectDevice
  trace : List Action
  deriving DecidableEq, Repr

/-- A freshly constructed object; nothing has happened yet. -/
def System.new : System := { self := KinectDevice.new, trace := [] }

/-- The user pointer of the device, as `freenect_get_user` returns it: the
object once `freenect_set_user(dev, this)` has been called, null before. -/
def userPtr (trace : List Action) : Ptr :=
  if Action.freenect_set_user ∈ trace then .handle else .nullptr

/-! ## `init` -/

/-- What `init()` leaves behind.  `ret` is `none` when the call does not
return because `std::terminate` ran (assignment to a joinable `std::thread`). -/
structure InitResult where
  ret : Option Bool
  sys : System
  deriving DecidableEq, Repr

/-- The method `KinectDevice::init`.  A failing `freenect_init` leaves
`ctx` null and a failing `freenect_open_device` leaves `dev` as it was, as
libfreenect does. -/
def init (sys : System) (o : DriverOutcomes) : InitResult :=
  let t := sys.trace ++ [.freenect_init o.freenect_init]
  if o.freenect_init < 0 then
    { ret := some false, sys := { self := { sys.self with ctx := .nullptr }, trace := t } }
  else
    let self := { sys.self with ctx := .handle }
    let t := t ++ [.freenect_set_log_level, .freenect_num_devices o.freenect_num_devices]
    if o.freenect_num_devices < 1 then
      { ret := some false, sys := { self := self, trace := t } }
    else
      let t := t ++ [.freenect_open_device o.freenect_open_device]
      if o.freenect_open_device < 0 then
        { ret := some false, sys := { self := self, trace := t } }
      else
        let self := { self with dev := .handle }
        let t := t ++ [.freenect_set_user, .freenect_find_video_mode o.video_mode_valid]
        if !o.video_mode_valid then
          { ret := some false, sys := { self := self, trace := t } }
        else
          let t := t ++ [.freenect_set_video_mode,
            .freenect_find_depth_mode o.depth_mode_valid]
          if !o.depth_mode_valid then
            { ret := some false, sys := { self := self, trace := t } }
          else
            let t := t ++ [.freenect_set_depth_mode, .freenect_set_video_callback,
              .freenect_set_depth_callback, .freenect_start_video o.freenect_start_video]
            if o.freenect_start_video < 0 then
              { ret := some false, sys := { self := self, trace := t } }
            else
              let t := t ++ [.freenect_start_depth o.freenect_start_depth]
              if o.freenect_start_depth < 0 then
                { ret := some false, sys := { self := self, trace := t } }
              else
                let t := t ++ [.thread_start]
                match self.worker with
                | some _ => { ret := none, sys := { self := self, trace := t ++ [.terminate] } }
                | none =>
                  { ret := some true
                    sys := { self := { self with worker := some .check }, trace := t } }

/-! ## The event pump `loop` -/

/-- One program point of `KinectDevice::loop`: `stop_thread` is the value of
the flag read under `stop_mtx`, `ret` the value `freenect_process_events`
returns.  The result is the next program point and the action performed. -/
def loopStep (pc : PumpPc) (stop_thread : Bool) (ret : Int) : PumpPc × List Action :=
  match pc with
  | .check =>
    if stop_thread then (.exited, [.check_stop true]) else (.process, [.check_stop false])
  | .process =>
    if ret < 0 then (.exited, [.freenect_process_events ret])
    else (.sleep, [.freenect_process_events ret])
  | .sleep => (.check, [.sleep])
  | .exited => (.exited, [])

/-- One iteration of the `while (true)` of `loop`, entered at the stop check:
three program points in a row (a point after the exit does nothing). -/
def loopIter (stop_thread : Bool) (ret : Int) : PumpPc × List Action :=
  let s1 := loopStep .check stop_thread ret
  let s2 := loopStep s1.1 stop_thread ret
  let s3 := loopStep s2.1 stop_thread ret
  (s3.1, s1.2 ++ s2.2 ++ s3.2)

/-- The method `KinectDevice::loop`, run on the list of what each iteration
observes: the stop flag at its check and the result of its
`freenect_process_events` call.  It returns the actions performed and whether
the loop has returned (`false`: the observations ran out while it was still
looping). -/
def loop : List (Bool × Int) → List Action × Bool
  | [] => ([], false)
  | (stop_thread, ret) :: rest =>
    if stop_thread then
      ([.check_stop true], true)
    else if ret < 0 then
      ([.check_stop false, .freenect_process_events ret], true)
    else
      let r := loop rest
      (.check_stop false :: .freenect_process_events ret :: .sleep :: r.1, r.2)

/-- The worker thread advances by one program point of `loop`.  At the call
of `freenect_process_events` the driver runs the callbacks of `pe` on the
object.  Without a thread of execution nothing happens. -/
def workerStep (sys : System) (pe : ProcessOutcome) : System :=
  match sys.self.worker with
  | none => sys
  | some pc =>
    let next := loopStep pc sys.self.stop_thread pe.ret
    let self :=
      if pc = .process then runCallbacks (userPtr sys.trace) sys.self pe.callbacks
      else sys.self
    { self := { self with worker := some next.1 }, trace := sys.trace ++ next.2 }

/-! ## `shutdown` -/

/-- The call `worker.join()` as `shutdown` makes it, after the stop flag is
set: the caller waits while the worker runs on to the end of `loop` (with the
flag set at most three program points remain), then the thread object is
released.  `pe` is the outcome of the `freenect_process_events` call that may
still be in flight. -/
def join (sys : System) (pe : ProcessOutcome) : System :=
  let sys := workerStep (workerStep (workerStep sys pe) pe) pe
  { self := { sys.self with worker := none }, trace := sys.trace ++ [.join] }

/-- The method `KinectDevice::shutdown`. -/
def shutdown (sys : System) (pe : ProcessOutcome) : System :=
  let sys : System :=
    { self := { sys.self with stop_thread := true }, trace := sys.trace ++ [.set_stop] }
  let sys := if sys.self.worker.isSome then join sys pe else sys
  let sys :=
    if sys.self.dev = .handle then
      { sys with trace := sys.trace ++
          [.freenect_stop_video, .freenect_stop_depth, .freenect_close_device] }
    else sys
  if sys.self.ctx = .handle then
    { sys with trace := sys.trace ++ [.freenect_shutdown] }
  else sys

/-! ## Runs between `init` and `shutdown` -/

/-- What can happen while the device is in use: the worker thread advances by
one program point, or the consumer calls `grabFrames`. -/
inductive Step where
  | worker (pe : ProcessOutcome)
  | grab (rgb depth : Mat)

/-- The effect of one step. -/
def Step.run (sys : System) : Step → System
  | .worker pe => workerStep sys pe
  | .grab rgb depth => { sys with self := (grabFrames sys.self rgb depth).self }

/-- The effect of a finite sequence of steps. -/
def run (sys : System) (steps : List Step) : System :=
  steps.foldl Step.run sys

/-! ## The driver handle and context -/

/-- Modelled from the spec: the driver library (libfreenect) is not part of
the repository, so the session state of section 3 (handle and context open
or closed, streams running or stopped) is kept here, together with a flag
that records a stop, close or release call made on a handle or context that
is not open. -/
structure Driver where
  ctx_open : Bool
  dev_open : Bool
  video_on : Bool
  depth_on : Bool
  fault : Bool
  deriving DecidableEq, Repr

/-- Modelled from the spec: before the first driver call nothing is open. -/
def Driver.initial : Driver :=
  { ctx_open := false, dev_open := false, video_on := false, depth_on := false, fault := false }

/-- Modelled from the spec: the effect of one action on the driver session.
A successful init, open or start opens the context, opens the handle or
starts the stream; a stop, close or release on an open handle or context
ends what it names (a closed handle has no running stream, a released
context has no open handle) and on a closed one is a fault. -/
def Driver.step (d : Driver) : Action → Driver
  | .freenect_init ret => if ret < 0 then d else { d with ctx_open := true }
  | .freenect_open_device ret => if ret < 0 then d else { d with dev_open := true }
  | .freenect_start_video ret => if ret < 0 then d else { d with video_on := true }
  | .freenect_start_depth ret => if ret < 0 then d else { d with depth_on := true }
  | .freenect_stop_video =>
    if d.dev_open then { d with video_on := false } else { d with fault := true }
  | .freenect_stop_depth =>
    if d.dev_open then { d with depth_on := false } else { d with fault := true }
  | .freenect_close_device =>
    if d.dev_open then { d with dev_open := false, video_on := false, depth_on := false }
    else { d with fault := true }
  | .freenect_shutdown =>
    if d.ctx_open then
      { d with ctx_open := false, dev_open := false, video_on := false, depth_on := false }
    else { d with fault := true }
  | _ => d

/-- Modelled from the spec: the driver session after a trace of actions. -/
def driverAfter (trace : List Action) : Driver :=
  trace.foldl Driver.step Driver.initial

/-- Modelled from the spec: the terminal closed state of the session: context
released, handle closed, no stream running. -/
def Driver.closed (d : Driver) : Bool :=
  !d.ctx_open && !d.dev_open && !d.video_on && !d.depth_on

/-! ## Classification of actions -/

/-- The action is a call of `freenect_process_events`. -/
def Action.isProcessEvents : Action → Bool
  | .freenect_process_events _ => true
  | _ => false

/-- The action stops a stream or closes the device handle. -/
def Action.isStopOrClose : Action → Bool
  | .freenect_stop_video => true
  | .freenect_stop_depth => true
  | .freenect_close_device => true
  | _ => false

/-- The action belongs to the event pump (the worker thread running
`loop`). -/
def Action.isPump : Action → Bool
  | .check_stop _ => true
  | .freenect_process_events _ => true
  | .sleep => true
  | _ => false

/-- The action is a check of the stop flag by the event pump. -/
def Action.isCheckStop : Action → Bool
  | .check_stop _ => true
  | _ => false

/-- The iteration gives no reason to leave the loop: the flag is observed
unset and `freenect_process_events` returns a non-negative value. -/
def keepsLooping (x : Bool × Int) : Prop := x.1 = false ∧ 0 ≤ x.2

/-- The actions of one iteration of `loop` on what it observes. -/
def iterActions (x : Bool × Int) : List Action := (loopIter x.1 x.2).2

/-- The actions of a run of iterations, one after the other. -/
def allIterActions : List (Bool × Int) → List Action
  | [] => []
  | x :: rest => iterActions x ++ allIterActions rest

/-- The action is a step of `init` whose result makes `init` give up. -/
def Action.failed : Action → Bool
  | .freenect_init ret => decide (ret < 0)
  | .freenect_num_devices ret => decide (ret < 1)
  | .freenect_open_device ret => decide (ret < 0)
  | .freenect_find_video_mode is_valid => !is_valid
  | .freenect_find_depth_mode is_valid => !is_valid
  | .freenect_start_video ret => decide (ret < 0)
  | .freenect_start_depth ret => decide (ret < 0)
  | _ => false

/-- The steps of `init` in the order of the source when none fails, ending
with the start of the worker thread. -/
def initSteps (o : DriverOutcomes) : List Action :=
  [.freenect_init o.freenect_init, .freenect_set_log_level,
   .freenect_num_devices o.freenect_num_devices,
   .freenect_open_device o.freenect_open_device, .freenect_set_user,
   .freenect_find_video_mode o.video_mode_valid, .freenect_set_video_mode,
   .freenect_find_depth_mode o.depth_mode_valid, .freenect_set_depth_mode,
   .freenect_set_video_callback, .freenect_set_depth_callback,
   .freenect_start_video o.freenect_start_video,
   .freenect_start_depth o.freenect_start_depth, .thread_start]

/-- The part of a list up to and including its first element with `p`. -/
def throughFirst (p : Action → Bool) : List Action → List Action
  | [] => []
  | a :: rest => if p a then [a] else a :: throughFirst p rest

/-- Every driver call of `init` succeeds: the condition under which `init`
is to return true. -/
def DriverOutcomes.allSucceed (o : DriverOutcomes) : Prop :=
  0 ≤ o.freenect_init ∧ 1 ≤ o.freenect_num_devices ∧ 0 ≤ o.freenect_open_device ∧
  o.video_mode_valid = true ∧ o.depth_mode_valid = true ∧
  0 ≤ o.freenect_start_video ∧ 0 ≤ o.freenect_start_depth

/-- Outcomes with which every step of `init` succeeds. -/
def okOutcomes : DriverOutcomes :=
  { freenect_init := 0, freenect_num_devices := 1, freenect_open_device := 0,
    video_mode_valid := true, depth_mode_valid := true,
    freenect_start_video := 0, freenect_start_depth := 0 }

/-- Outcomes with which the video stream starts and the depth stream does
not. -/
def depthStartFails : DriverOutcomes :=
  { okOutcomes with freenect_start_depth := -1 }

/-- A `freenect_process_events` call that runs no callback and returns 0. -/
def quietProcess : ProcessOutcome := { ret := 0, callbacks := [] }

/-- An object whose colour slot is fresh and whose depth slot is not. -/
def colourFresh : KinectDevice :=
  { KinectDevice.new with new_rgb := true, rgb_ := ⟨1, 1, 16, [1, 2, 3]⟩ }

/-- An object whose two slots are fresh. -/
def bothFresh : KinectDevice :=
  { colourFresh with new_depth := true, depth_ := ⟨1, 1, 2, [1200]⟩ }

/-- A raw colour buffer with distinguishable 8-bit elements. -/
def rampColour : RawBuf := fun i => i % 256

/-- A raw depth buffer with distinguishable 16-bit elements. -/
def rampDepth : RawBuf := fun i => (7 * i) % 2048

/-- The driver session with context and handle open and both streams
running, and no fault so far. -/
def Driver.streaming : Driver :=
  { ctx_open := true, dev_open := true, video_on := true, depth_on := true, fault := false }

/-- Invariant of the states in use, between a successful `init` and
`shutdown`: the object holds the context and the handle, its thread member
owns the worker thread, the stop flag is not set, no stop or close call has
been made, and the driver session is streaming. -/
def InUse (sys : System) : Prop :=
  sys.self.ctx = .handle ∧ sys.self.dev = .handle ∧ sys.self.worker.isSome = true ∧
  sys.self.stop_thread = false ∧ (∀ a ∈ sys.trace, a.isStopOrClose = false) ∧
  driverAfter sys.trace = Driver.streaming

/-- The calls `shutdown` itself makes after the join, in order. -/
def teardownCalls : List Action :=
  [.freenect_stop_video, .freenect_stop_depth, .freenect_close_device, .freenect_shutdown]

/-- A worker step at the call of `freenect_process_events`, one colour frame
delivered. -/
def colourProcess : ProcessOutcome := { ret := 0, callbacks := [.video rampColour] }

/-- A run in use: the worker checks the flag and calls
`freenect_process_events`, which delivers a colour frame; the consumer polls;
the worker sleeps, checks the flag again and stands at its next
`freenect_process_events` call. -/
def sampleSteps : List Step :=
  [.worker quietProcess, .worker colourProcess, .grab Mat.empty Mat.empty,
   .worker quietProcess, .worker quietProcess]

/-! ## Interleavings of producer and consumer calls -/

/-- One call on the frame slots.  The bodies of `videoCB`, `depthCB` and
`grabFrames` hold `data_mtx` from their first access to the object to their
last, so each call is one step of an interleaving: a producer callback with
the user pointer it finds, or a consumer call of `grabFrames` with its two
reference arguments. -/
inductive Ev where
  | cb (user : Ptr) (c : Callback)
  | grab (rgb depth : Mat)

/-- The effect of one call on the object. -/
def Ev.run (self : KinectDevice) : Ev → KinectDevice
  | .cb user c => Callback.run user self c
  | .grab rgb depth => (grabFrames self rgb depth).self

/-- The effect of an interleaving of calls, in order. -/
def runEvs (self : KinectDevice) (evs : List Ev) : KinectDevice :=
  evs.foldl Ev.run self

/-- The buffer of the last `videoCB` call of an interleaving that found its
owning session, if any. -/
def lastVideoEv : List Ev → Option RawBuf
  | [] => none
  | .cb .handle (.video buf) :: rest => (lastVideoEv rest).orElse (fun _ => some buf)
  | _ :: rest => lastVideoEv rest

/-- The buffer of the last `depthCB` call of an interleaving that found its
owning session, if any. -/
def lastDepthEv : List Ev → Option RawBuf
  | [] => none
  | .cb .handle (.depth buf) :: rest => (lastDepthEv rest).orElse (fun _ => some buf)
  | _ :: rest => lastDepthEv rest

/-- A second raw colour buffer, different from `rampColour`. -/
def flatColour : RawBuf := fun _ => 128

/-- An interleaving: a colour write, a poll that finds no pair, a second
colour write, a depth write, and a callback without owning session. -/
def sampleEvs : List Ev :=
  [.cb .handle (.video flatColour), .grab Mat.empty Mat.empty,
   .cb .handle (.video rampColour), .cb .handle (.depth rampDepth),
   .cb .nullptr (.video flatColour)]

/-! ## The worker thread as the trace records it -/

/-- The program point of the worker thread after one more action of the
trace: the start of the thread puts it at the stop check, a pump action
moves it as `loop` does, any other action leaves it where it is. -/
def pcStep : Thread → Action → Thread
  | _, .thread_start => some .check
  | some .check, .check_stop observed => some (if observed then .exited else .process)
  | some .process, .freenect_process_events ret => some (if ret < 0 then .exited else .sleep)
  | some .sleep, .sleep => some .check
  | t, _ => t

/-- The program point of the worker thread at the end of a trace (`none`:
no thread was started). -/
def pumpPcOf (trace : List Action) : Thread :=
  trace.foldl pcStep none

/-- What is left of `loop` once the stop flag is set, from the program point
the worker stands at: the call in flight, if any, returns `ret`; the next stop
check sees the flag and leaves the loop. -/
def drainActions : Thread → Int → List Action
  | none, _ => []
  | some .check, _ => [.check_stop true]
  | some .process, ret =>
    if ret < 0 then [.freenect_process_events ret]
    else [.freenect_process_events ret, .sleep, .check_stop true]
  | some .sleep, _ => [.sleep, .check_stop true]
  | some .exited, _ => []

/-- The state in which the call `worker.join()` of `shutdown` returns: the
stop flag has been stored, and the worker has run on for the three program
points the join waits for. -/
def atJoin (sys : System) (pe : ProcessOutcome) : System :=
  workerStep (workerStep (workerStep
    { self := { sys.self with stop_thread := true }, trace := sys.trace ++ [.set_stop] }
    pe) pe) pe

/-! ## Lemmas on frames -/

theorem swapRB_length (n : Nat) : ∀ l : List Nat, l.length = 3 * n →
    (swapRB l).length = 3 * n := by
  induction n with
  | zero =>
    intro l hl
    have : l = [] := List.length_eq_zero.mp (by simpa using hl)
    subst this
    simp [swapRB]
  | succ n ih =>
    intro l hl
    match l, hl with
    | r :: g :: b :: rest, hl =>
      have hrest : rest.length = 3 * n := by
        simp only [List.length_cons] at hl
        omega
      simp only [swapRB, List.length_cons, ih rest hrest]
      omega

theorem swapRB_getElem (n : Nat) : ∀ l : List Nat, l.length = 3 * n →
    ∀ p, p < n →
      (swapRB l)[3 * p]? = l[3 * p + 2]? ∧
      (swapRB l)[3 * p + 1]? = l[3 * p + 1]? ∧
      (swapRB l)[3 * p + 2]? = l[3 * p]? := by
  induction n with
  | zero => intro l _ p hp; omega
  | succ n ih =>
    intro l hl p hp
    match l, hl with
    | r :: g :: b :: rest, hl =>
      have hrest : rest.length = 3 * n := by
        simp only [List.length_cons] at hl
        omega
      cases p with
      | zero => simp [swapRB]
      | succ q =>
        have hq : q < n := by omega
        obtain ⟨h0, h1, h2⟩ := ih rest hrest q hq
        have e0 : 3 * (q + 1) = (3 * q) + 1 + 1 + 1 := by ring
        have e1 : 3 * (q + 1) + 1 = (3 * q + 1) + 1 + 1 + 1 := by ring
        have e2 : 3 * (q + 1) + 2 = (3 * q + 2) + 1 + 1 + 1 := by ring
        refine ⟨?_, ?_, ?_⟩
        · rw [e2, e0]
          simpa [swapRB] using h0
        · rw [e1]
          simpa [swapRB] using h1
        · rw [e2, e0]
          simpa [swapRB] using h2

theorem ofRaw_getElem (rows cols type : Nat) (ptr : RawBuf) (i : Nat)
    (hi : i < rows * cols * channels type) :
    (Mat.ofRaw rows cols type ptr).data[i]? = some (ptr i) := by
  simp [Mat.ofRaw, List.getElem?_map, List.getElem?_range hi]

theorem ofRaw_length (rows cols type : Nat) (ptr : RawBuf) :
    (Mat.ofRaw rows cols type ptr).data.length = rows * cols * channels type := by
  simp [Mat.ofRaw]

theorem cvtColor_data (src : Mat) : (cvtColor_RGB2BGR src).data = swapRB src.data := rfl

theorem cvtColor_rows (src : Mat) : (cvtColor_RGB2BGR src).rows = src.rows := rfl

theorem cvtColor_cols (src : Mat) : (cvtColor_RGB2BGR src).cols = src.cols := rfl

theorem cvtColor_type (src : Mat) : (cvtColor_RGB2BGR src).type = src.type := rfl

theorem ofRaw_rows (rows cols type : Nat) (ptr : RawBuf) :
    (Mat.ofRaw rows cols type ptr).rows = rows := rfl

theorem ofRaw_cols (rows cols type : Nat) (ptr : RawBuf) :
    (Mat.ofRaw rows cols type ptr).cols = cols := rfl

theorem ofRaw_type (rows cols type : Nat) (ptr : RawBuf) :
    (Mat.ofRaw rows cols type ptr).type = type := rfl

theorem clone_eq (m : Mat) : m.clone = m := rfl

/-- The colour frame `videoCB` stores is, pixel by pixel, the raw buffer with
first and third channel exchanged. -/
theorem cvtColor_ofRaw_isBGROf (buf : RawBuf) :
    IsBGROf (cvtColor_RGB2BGR (Mat.ofRaw 480 640 CV_8UC3 buf)) buf := by
  have hch : channels CV_8UC3 = 3 := by decide
  have hlen : (Mat.ofRaw 480 640 CV_8UC3 buf).data.length = 3 * (480 * 640) := by
    rw [ofRaw_length, hch, Nat.mul_comm]
  unfold IsBGROf
  rw [cvtColor_rows, cvtColor_cols, cvtColor_type, cvtColor_data, ofRaw_rows, ofRaw_cols,
    ofRaw_type]
  refine ⟨rfl, rfl, rfl, ?_, ?_⟩
  · rw [swapRB_length (480 * 640) _ hlen, Nat.mul_comm]
  · intro p hp
    obtain ⟨h0, h1, h2⟩ := swapRB_getElem (480 * 640) _ hlen p hp
    have b0 : 3 * p < 480 * 640 * channels CV_8UC3 := by rw [hch]; omega
    have b1 : 3 * p + 1 < 480 * 640 * channels CV_8UC3 := by rw [hch]; omega
    have b2 : 3 * p + 2 < 480 * 640 * channels CV_8UC3 := by rw [hch]; omega
    rw [h0, h1, h2, ofRaw_getElem _ _ _ _ _ b0, ofRaw_getElem _ _ _ _ _ b1,
      ofRaw_getElem _ _ _ _ _ b2]
    exact ⟨rfl, rfl, rfl⟩

/-- The depth frame `depthCB` stores holds the raw buffer one for one. -/
theorem clone_ofRaw_isRawDepthOf (buf : RawBuf) :
    IsRawDepthOf (Mat.ofRaw 480 640 CV_16UC1 buf).clone buf := by
  have hch : channels CV_16UC1 = 1 := by decide
  unfold IsRawDepthOf
  rw [clone_eq, ofRaw_rows, ofRaw_cols, ofRaw_type, ofRaw_length, hch]
  refine ⟨rfl, rfl, rfl, Nat.mul_one _, ?_⟩
  intro i hi
  exact ofRaw_getElem _ _ _ _ _ (by rw [hch]; omega)

/-- A matrix is determined by the element-wise description of a colour
frame. -/
theorem IsBGROf.unique {m m2 : Mat} {buf : RawBuf} (h : IsBGROf m buf) (h2 : IsBGROf m2 buf) :
    m = m2 := by
  obtain ⟨r1, c1, t1, l1, e1⟩ := h
  obtain ⟨r2, c2, t2, l2, e2⟩ := h2
  have hd : m.data = m2.data := by
    apply List.ext_getElem?
    intro i
    by_cases hi : i < 480 * 640 * 3
    · have hp : i / 3 < 480 * 640 := by omega
      obtain ⟨a0, a1, a2⟩ := e1 (i / 3) hp
      obtain ⟨b0, b1, b2⟩ := e2 (i / 3) hp
      have hm : i % 3 = 0 ∨ i % 3 = 1 ∨ i % 3 = 2 := by omega
      rcases hm with hm | hm | hm
      · have : i = 3 * (i / 3) := by omega
        rw [this, a0, b0]
      · have : i = 3 * (i / 3) + 1 := by omega
        rw [this, a1, b1]
      · have : i = 3 * (i / 3) + 2 := by omega
        rw [this, a2, b2]
    · rw [List.getElem?_eq_none (by omega), List.getElem?_eq_none (by omega)]
  cases m; cases m2
  simp_all

/-! ## Lemmas on the callbacks -/

theorem runCallbacks_cons (user : Ptr) (self : KinectDevice) (cb : Callback)
    (cbs : List Callback) :
    runCallbacks user self (cb :: cbs) = runCallbacks user (Callback.run user self cb) cbs := rfl

/-- After a sequence of callbacks each slot holds the frame of the last
callback of its stream, or its old content when there was none, and is fresh
when there was one or it was fresh before. -/
theorem runCallbacks_slots (cbs : List Callback) : ∀ self : KinectDevice,
    (runCallbacks .handle self cbs).rgb_ =
        ((lastVideo cbs).map fun b => cvtColor_RGB2BGR (Mat.ofRaw 480 640 CV_8UC3 b)).getD
          self.rgb_ ∧
    (runCallbacks .handle self cbs).new_rgb = ((lastVideo cbs).isSome || self.new_rgb) ∧
    (runCallbacks .handle self cbs).depth_ =
        ((lastDepth cbs).map fun b => (Mat.ofRaw 480 640 CV_16UC1 b).clone).getD
          self.depth_ ∧
    (runCallbacks .handle self cbs).new_depth = ((lastDepth cbs).isSome || self.new_depth) := by
  induction cbs with
  | nil => intro self; simp [runCallbacks, lastVideo, lastDepth]
  | cons cb rest ih =>
    intro self
    rw [runCallbacks_cons]
    obtain ⟨h1, h2, h3, h4⟩ := ih (Callback.run .handle self cb)
    rw [h1, h2, h3, h4]
    cases cb with
    | video buf =>
      cases hv : lastVideo rest <;> simp [Callback.run, videoCB, lastVideo, lastDepth, hv]
    | depth buf =>
      cases hd : lastDepth rest <;> simp [Callback.run, depthCB, lastVideo, lastDepth, hd]

/-- With both flags set `grabFrames` hands out the stored frames and clears
the flags. -/
theorem grabFrames_pair (self : KinectDevice) (rgb depth : Mat)
    (h1 : self.new_rgb = true) (h2 : self.new_depth = true) :
    (grabFrames self rgb depth).ret = true ∧
    (grabFrames self rgb depth).rgb = self.rgb_ ∧
    (grabFrames self rgb depth).depth = self.depth_ ∧
    (grabFrames self rgb depth).self.new_rgb = false ∧
    (grabFrames self rgb depth).self.new_depth = false := by
  simp [grabFrames, h1, h2, Mat.clone]

/-- The returned boolean of `grabFrames` tells whether both flags were set. -/
theorem grabFrames_paired_flags (self : KinectDevice) (rgb depth : Mat) :
    (grabFrames self rgb depth).ret = true ↔ (self.new_rgb = true ∧ self.new_depth = true) := by
  cases h1 : self.new_rgb <;> cases h2 : self.new_depth <;> simp [grabFrames, h1, h2]

/-- Without a fresh colour frame `grabFrames` returns false. -/
theorem grabFrames_stale_colour (self : KinectDevice) (rgb depth : Mat)
    (h : self.new_rgb = false) : (grabFrames self rgb depth).ret = false := by
  simp [grabFrames, h]

/-! ## The claims on the frame exchange -/

/-- C1 (pairing policy): when the two freshness flags are not both set,
`grabFrames` returns false and changes nothing: the object is the same (both
flags, both stored frames) and the output arguments are not written. This
covers the states with exactly one fresh slot and the state with none. -/
theorem grabFrames_unpaired_leaves_state (self : KinectDevice) (rgb depth : Mat)
    (h : ¬ (self.new_rgb = true ∧ self.new_depth = true)) :
    (grabFrames self rgb depth).ret = false ∧
    (grabFrames self rgb depth).self = self ∧
    (grabFrames self rgb depth).self.new_rgb = self.new_rgb ∧
    (grabFrames self rgb depth).self.new_depth = self.new_depth ∧
    (grabFrames self rgb depth).self.rgb_ = self.rgb_ ∧
    (grabFrames self rgb depth).self.depth_ = self.depth_ ∧
    (grabFrames self rgb depth).rgb = rgb ∧
    (grabFrames self rgb depth).depth = depth := by
  have hc : (self.new_rgb && self.new_depth) = false := by
    cases h1 : self.new_rgb <;> cases h2 : self.new_depth <;> simp_all
  simp [grabFrames, hc]

/-- Witness of C1: the colour slot is fresh, the depth slot is not. -/
theorem grabFrames_unpaired_leaves_state_witness :
    (grabFrames colourFresh ⟨1, 1, 0, [7]⟩ ⟨1, 1, 2, [9]⟩).ret = false ∧
    (grabFrames colourFresh ⟨1, 1, 0, [7]⟩ ⟨1, 1, 2, [9]⟩).self.new_rgb = true ∧
    (grabFrames colourFresh ⟨1, 1, 0, [7]⟩ ⟨1, 1, 2, [9]⟩).rgb = ⟨1, 1, 0, [7]⟩ :=
  have h := grabFrames_unpaired_leaves_state colourFresh ⟨1, 1, 0, [7]⟩ ⟨1, 1, 2, [9]⟩
    (by decide)
  ⟨h.1, h.2.2.1, h.2.2.2.2.2.2.1⟩

/-- C2 (full pair consumption): `grabFrames` returns true exactly when both
freshness flags are set; in that case the outputs are the stored frames,
element for element, both flags are cleared and nothing else in the object
changes. -/
theorem grabFrames_paired_consumes (self : KinectDevice) (rgb depth : Mat) :
    ((grabFrames self rgb depth).ret = true ↔
      (self.new_rgb = true ∧ self.new_depth = true)) ∧
    (self.new_rgb = true ∧ self.new_depth = true →
      (grabFrames self rgb depth).ret = true ∧
      (grabFrames self rgb depth).rgb = self.rgb_ ∧
      (grabFrames self rgb depth).depth = self.depth_ ∧
      (grabFrames self rgb depth).self.new_rgb = false ∧
      (grabFrames self rgb depth).self.new_depth = false ∧
      (grabFrames self rgb depth).self.rgb_ = self.rgb_ ∧
      (grabFrames self rgb depth).self.depth_ = self.depth_ ∧
      (grabFrames self rgb depth).self.ctx = self.ctx ∧
      (grabFrames self rgb depth).self.dev = self.dev ∧
      (grabFrames self rgb depth).self.worker = self.worker ∧
      (grabFrames self rgb depth).self.stop_thread = self.stop_thread) := by
  constructor
  · cases h1 : self.new_rgb <;> cases h2 : self.new_depth <;> simp [grabFrames, h1, h2]
  · rintro ⟨h1, h2⟩
    simp [grabFrames, h1, h2, Mat.clone]

/-- Witness of C2: both slots fresh, with distinguishable frames. -/
theorem grabFrames_paired_consumes_witness :
    (grabFrames bothFresh Mat.empty Mat.empty).ret = true ∧
    (grabFrames bothFresh Mat.empty Mat.empty).depth = ⟨1, 1, 2, [1200]⟩ ∧
    (grabFrames bothFresh Mat.empty Mat.empty).self.new_rgb = false :=
  have h := (grabFrames_paired_consumes bothFresh Mat.empty Mat.empty).2 ⟨rfl, rfl⟩
  ⟨h.1, h.2.2.1, h.2.2.2.1⟩

/-- C3 (latest pair, then empty): from any state, after any sequence of
callbacks (owning session not null) whose last `videoCB` carried `vb` and
whose last `depthCB` carried `db`, `grabFrames` returns true, the depth output
holds `db` one for one, the colour output holds `vb` with first and third
channel of every pixel exchanged, and a second `grabFrames` right after
returns false. -/
theorem latest_pair_then_empty (self : KinectDevice) (cbs : List Callback) (vb db : RawBuf)
    (rgb depth rgb2 depth2 : Mat)
    (hv : lastVideo cbs = some vb) (hd : lastDepth cbs = some db) :
    (grabFrames (runCallbacks .handle self cbs) rgb depth).ret = true ∧
    IsRawDepthOf (grabFrames (runCallbacks .handle self cbs) rgb depth).depth db ∧
    IsBGROf (grabFrames (runCallbacks .handle self cbs) rgb depth).rgb vb ∧
    (grabFrames (grabFrames (runCallbacks .handle self cbs) rgb depth).self rgb2 depth2).ret
      = false := by
  obtain ⟨h1, h2, h3, h4⟩ := runCallbacks_slots cbs self
  rw [hv] at h1 h2
  rw [hd] at h3 h4
  simp only [Option.map_some', Option.getD_some, Option.isSome_some, Bool.true_or] at h1 h2 h3 h4
  have hg := (grabFrames_pair (runCallbacks .handle self cbs) rgb depth h2 h4)
  obtain ⟨g1, g2, g3, g4, g5⟩ := hg
  refine ⟨g1, ?_, ?_, ?_⟩
  · rw [g3, h3]; exact clone_ofRaw_isRawDepthOf db
  · rw [g2, h1]; exact cvtColor_ofRaw_isBGROf vb
  · exact grabFrames_stale_colour _ rgb2 depth2 g4

/-- Witness of C3: the freshly constructed device, one colour write followed
by one depth write. -/
theorem latest_pair_then_empty_witness :
    (grabFrames (runCallbacks .handle KinectDevice.new [.video rampColour, .depth rampDepth])
      Mat.empty Mat.empty).ret = true ∧
    IsRawDepthOf (grabFrames
      (runCallbacks .handle KinectDevice.new [.video rampColour, .depth rampDepth])
      Mat.empty Mat.empty).depth rampDepth ∧
    IsBGROf (grabFrames
      (runCallbacks .handle KinectDevice.new [.video rampColour, .depth rampDepth])
      Mat.empty Mat.empty).rgb rampColour ∧
    (grabFrames (grabFrames
      (runCallbacks .handle KinectDevice.new [.video rampColour, .depth rampDepth])
      Mat.empty Mat.empty).self Mat.empty Mat.empty).ret = false :=
  latest_pair_then_empty KinectDevice.new [.video rampColour, .depth rampDepth]
    rampColour rampDepth Mat.empty Mat.empty Mat.empty Mat.empty rfl rfl

/-- C4 (slot write): with a non-null owning session `videoCB` replaces
`rgb_` by the channel-exchanged frame of the buffer and sets `new_rgb`,
`depthCB` replaces `depth_` by the one-for-one copy of the buffer and sets
`new_depth`; each leaves every other member as it was; what is written does
not depend on the object it is written to (`other`); and with a null owning
session either callback leaves the object as it was. -/
theorem callback_writes_slot (self other : KinectDevice) (buf : RawBuf) :
    ((videoCB .handle self buf).rgb_ = cvtColor_RGB2BGR (Mat.ofRaw 480 640 CV_8UC3 buf) ∧
     IsBGROf (videoCB .handle self buf).rgb_ buf ∧
     (videoCB .handle self buf).new_rgb = true ∧
     (videoCB .handle self buf).depth_ = self.depth_ ∧
     (videoCB .handle self buf).new_depth = self.new_depth ∧
     (videoCB .handle self buf).stop_thread = self.stop_thread ∧
     (videoCB .handle self buf).ctx = self.ctx ∧
     (videoCB .handle self buf).dev = self.dev ∧
     (videoCB .handle self buf).worker = self.worker) ∧
    ((depthCB .handle self buf).depth_ = Mat.ofRaw 480 640 CV_16UC1 buf ∧
     IsRawDepthOf (depthCB .handle self buf).depth_ buf ∧
     (depthCB .handle self buf).new_depth = true ∧
     (depthCB .handle self buf).rgb_ = self.rgb_ ∧
     (depthCB .handle self buf).new_rgb = self.new_rgb ∧
     (depthCB .handle self buf).stop_thread = self.stop_thread ∧
     (depthCB .handle self buf).ctx = self.ctx ∧
     (depthCB .handle self buf).dev = self.dev ∧
     (depthCB .handle self buf).worker = self.worker) ∧
    ((videoCB .handle self buf).rgb_ = (videoCB .handle other buf).rgb_ ∧
     (videoCB .handle self buf).new_rgb = (videoCB .handle other buf).new_rgb ∧
     (depthCB .handle self buf).depth_ = (depthCB .handle other buf).depth_ ∧
     (depthCB .handle self buf).new_depth = (depthCB .handle other buf).new_depth) ∧
    (videoCB .nullptr self buf = self ∧ depthCB .nullptr self buf = self) := by
  refine ⟨⟨rfl, cvtColor_ofRaw_isBGROf buf, rfl, rfl, rfl, rfl, rfl, rfl, rfl⟩,
    ⟨rfl, clone_ofRaw_isRawDepthOf buf, rfl, rfl, rfl, rfl, rfl, rfl, rfl⟩,
    ⟨rfl, rfl, rfl, rfl⟩, ⟨rfl, rfl⟩⟩

/-! ## Interleaved producer and consumer calls -/

theorem runEvs_cons (self : KinectDevice) (ev : Ev) (evs : List Ev) :
    runEvs self (ev :: evs) = runEvs (Ev.run self ev) evs := rfl

theorem grabFrames_self_slots (self : KinectDevice) (rgb depth : Mat) :
    (grabFrames self rgb depth).self.rgb_ = self.rgb_ ∧
    (grabFrames self rgb depth).self.depth_ = self.depth_ ∧
    ((grabFrames self rgb depth).self.new_rgb = true → self.new_rgb = true) ∧
    ((grabFrames self rgb depth).self.new_depth = true → self.new_depth = true) := by
  unfold grabFrames
  split <;> simp

/-- Slot invariant along an interleaving: each slot holds the frame stored by
the last callback of its stream that found its session, or its old content
when there was none; and a slot is fresh only if such a callback happened or
the slot was fresh at the start. -/
theorem runEvs_slots (evs : List Ev) : ∀ self : KinectDevice,
    (runEvs self evs).rgb_ =
        ((lastVideoEv evs).map fun b => cvtColor_RGB2BGR (Mat.ofRaw 480 640 CV_8UC3 b)).getD
          self.rgb_ ∧
    ((runEvs self evs).new_rgb = true →
        (lastVideoEv evs).isSome = true ∨ self.new_rgb = true) ∧
    (runEvs self evs).depth_ =
        ((lastDepthEv evs).map fun b => (Mat.ofRaw 480 640 CV_16UC1 b).clone).getD
          self.depth_ ∧
    ((runEvs self evs).new_depth = true →
        (lastDepthEv evs).isSome = true ∨ self.new_depth = true) := by
  induction evs with
  | nil => intro self; simp [runEvs, lastVideoEv, lastDepthEv]
  | cons ev rest ih =>
    intro self
    rw [runEvs_cons]
    obtain ⟨h1, h2, h3, h4⟩ := ih (Ev.run self ev)
    rw [h1, h3]
    match ev with
    | .cb .handle (.video buf) =>
      refine ⟨?_, ?_, ?_, ?_⟩
      · cases hv : lastVideoEv rest <;> simp [Ev.run, Callback.run, videoCB, lastVideoEv, hv]
      · intro _
        left
        cases hv : lastVideoEv rest <;> simp [lastVideoEv, hv]
      · simp [Ev.run, Callback.run, videoCB, lastDepthEv]
      · intro hf
        simpa [Ev.run, Callback.run, videoCB, lastDepthEv] using h4 hf
    | .cb .handle (.depth buf) =>
      refine ⟨?_, ?_, ?_, ?_⟩
      · simp [Ev.run, Callback.run, depthCB, lastVideoEv]
      · intro hf
        simpa [Ev.run, Callback.run, depthCB, lastVideoEv] using h2 hf
      · cases hd : lastDepthEv rest <;> simp [Ev.run, Callback.run, depthCB, lastDepthEv, hd]
      · intro _
        left
        cases hd : lastDepthEv rest <;> simp [lastDepthEv, hd]
    | .cb .nullptr (.video buf) =>
      refine ⟨?_, ?_, ?_, ?_⟩
      · simp [Ev.run, Callback.run, videoCB, lastVideoEv]
      · intro hf
        simpa [Ev.run, Callback.run, videoCB, lastVideoEv] using h2 hf
      · simp [Ev.run, Callback.run, videoCB, lastDepthEv]
      · intro hf
        simpa [Ev.run, Callback.run, videoCB, lastDepthEv] using h4 hf
    | .cb .nullptr (.depth buf) =>
      refine ⟨?_, ?_, ?_, ?_⟩
      · simp [Ev.run, Callback.run, depthCB, lastVideoEv]
      · intro hf
        simpa [Ev.run, Callback.run, depthCB, lastVideoEv] using h2 hf
      · simp [Ev.run, Callback.run, depthCB, lastDepthEv]
      · intro hf
        simpa [Ev.run, Callback.run, depthCB, lastDepthEv] using h4 hf
    | .grab rgb depth =>
      obtain ⟨g1, g2, g3, g4⟩ := grabFrames_self_slots self rgb depth
      refine ⟨?_, ?_, ?_, ?_⟩
      · simp [Ev.run, lastVideoEv, g1]
      · intro hf
        rcases h2 hf with h | h
        · left; simpa [lastVideoEv] using h
        · right; exact g3 h
      · simp [Ev.run, lastDepthEv, g2]
      · intro hf
        rcases h4 hf with h | h
        · left; simpa [lastDepthEv] using h
        · right; exact g4 h

theorem lastVideoEv_mem (evs : List Ev) (vb : RawBuf) (h : lastVideoEv evs = some vb) :
    Ev.cb .handle (.video vb) ∈ evs := by
  induction evs with
  | nil => simp [lastVideoEv] at h
  | cons ev rest ih =>
    match ev with
    | .cb .handle (.video buf) =>
      cases hv : lastVideoEv rest with
      | none =>
        simp only [lastVideoEv, hv, Option.orElse] at h
        have hb : buf = vb := Option.some.inj h
        rw [hb]
        exact List.mem_cons_self _ _
      | some b =>
        simp only [lastVideoEv, hv, Option.orElse] at h
        exact List.mem_cons_of_mem _ (ih (hv.trans h))
    | .cb .handle (.depth buf) => exact List.mem_cons_of_mem _ (ih (by simpa [lastVideoEv] using h))
    | .cb .nullptr c => exact List.mem_cons_of_mem _ (ih (by simpa [lastVideoEv] using h))
    | .grab rgb depth => exact List.mem_cons_of_mem _ (ih (by simpa [lastVideoEv] using h))

theorem lastDepthEv_mem (evs : List Ev) (db : RawBuf) (h : lastDepthEv evs = some db) :
    Ev.cb .handle (.depth db) ∈ evs := by
  induction evs with
  | nil => simp [lastDepthEv] at h
  | cons ev rest ih =>
    match ev with
    | .cb .handle (.depth buf) =>
      cases hv : lastDepthEv rest with
      | none =>
        simp only [lastDepthEv, hv, Option.orElse] at h
        have hb : buf = db := Option.some.inj h
        rw [hb]
        exact List.mem_cons_self _ _
      | some b =>
        simp only [lastDepthEv, hv, Option.orElse] at h
        exact List.mem_cons_of_mem _ (ih (hv.trans h))
    | .cb .handle (.video buf) => exact List.mem_cons_of_mem _ (ih (by simpa [lastDepthEv] using h))
    | .cb .nullptr c => exact List.mem_cons_of_mem _ (ih (by simpa [lastDepthEv] using h))
    | .grab rgb depth => exact List.mem_cons_of_mem _ (ih (by simpa [lastDepthEv] using h))

/-- C9 (single-slot atomicity), with every call of `videoCB`, `depthCB` and
`grabFrames` one step of the interleaving (each body holds `data_mtx`
throughout): from the constructed object, after any interleaving `pre` of
producer callbacks and consumer polls, a `grabFrames` that returns true hands
out, for each stream, exactly the frame one completed earlier callback of that
stream stored, whole: there are a `videoCB` call and a `depthCB` call in `pre`,
each with its owning session, such that the colour output is what that
`videoCB` stores from its buffer and the depth output is what that `depthCB`
stores from its buffer, whatever object they write to; they are the last such
calls of their streams. -/
theorem grab_returns_single_write (pre : List Ev) (rgb depth : Mat)
    (hret : (grabFrames (runEvs KinectDevice.new pre) rgb depth).ret = true) :
    ∃ vb db : RawBuf,
      Ev.cb .handle (.video vb) ∈ pre ∧ Ev.cb .handle (.depth db) ∈ pre ∧
      lastVideoEv pre = some vb ∧ lastDepthEv pre = some db ∧
      (∀ other : KinectDevice,
        (grabFrames (runEvs KinectDevice.new pre) rgb depth).rgb =
          (videoCB .handle other vb).rgb_) ∧
      (∀ other : KinectDevice,
        (grabFrames (runEvs KinectDevice.new pre) rgb depth).depth =
          (depthCB .handle other db).depth_) ∧
      IsBGROf (grabFrames (runEvs KinectDevice.new pre) rgb depth).rgb vb ∧
      IsRawDepthOf (grabFrames (runEvs KinectDevice.new pre) rgb depth).depth db := by
  have hflags := (grabFrames_paired_flags (runEvs KinectDevice.new pre) rgb depth).mp hret
  obtain ⟨s1, s2, s3, s4⟩ := runEvs_slots pre KinectDevice.new
  have hv : (lastVideoEv pre).isSome = true := by
    rcases s2 hflags.1 with h | h
    · exact h
    · exact absurd h (by decide)
  have hd : (lastDepthEv pre).isSome = true := by
    rcases s4 hflags.2 with h | h
    · exact h
    · exact absurd h (by decide)
  obtain ⟨vb, hvb⟩ := Option.isSome_iff_exists.mp hv
  obtain ⟨db, hdb⟩ := Option.isSome_iff_exists.mp hd
  rw [hvb] at s1
  rw [hdb] at s3
  simp only [Option.map_some', Option.getD_some] at s1 s3
  obtain ⟨_, g2, g3, _, _⟩ := grabFrames_pair (runEvs KinectDevice.new pre) rgb depth
    hflags.1 hflags.2
  refine ⟨vb, db, lastVideoEv_mem pre vb hvb, lastDepthEv_mem pre db hdb, hvb, hdb, ?_, ?_,
    ?_, ?_⟩
  · intro other
    rw [g2, s1]
    rfl
  · intro other
    rw [g3, s3]
    rfl
  · rw [g2, s1]
    exact cvtColor_ofRaw_isBGROf vb
  · rw [g3, s3]
    exact clone_ofRaw_isRawDepthOf db

/-- Witness of C9: two colour writes with a failed poll in between, a depth
write and a callback without session; the poll that follows returns the pair
of the second colour write and the depth write. -/
theorem grab_returns_single_write_witness :
    (grabFrames (runEvs KinectDevice.new sampleEvs) Mat.empty Mat.empty).ret = true ∧
    ∃ vb db : RawBuf,
      Ev.cb .handle (.video vb) ∈ sampleEvs ∧ Ev.cb .handle (.depth db) ∈ sampleEvs ∧
      lastVideoEv sampleEvs = some vb ∧ lastDepthEv sampleEvs = some db ∧
      (∀ other : KinectDevice,
        (grabFrames (runEvs KinectDevice.new sampleEvs) Mat.empty Mat.empty).rgb =
          (videoCB .handle other vb).rgb_) ∧
      (∀ other : KinectDevice,
        (grabFrames (runEvs KinectDevice.new sampleEvs) Mat.empty Mat.empty).depth =
          (depthCB .handle other db).depth_) ∧
      IsBGROf (grabFrames (runEvs KinectDevice.new sampleEvs) Mat.empty Mat.empty).rgb vb ∧
      IsRawDepthOf
        (grabFrames (runEvs KinectDevice.new sampleEvs) Mat.empty Mat.empty).depth db :=
  ⟨rfl, grab_returns_single_write sampleEvs Mat.empty Mat.empty rfl⟩

/-! ## Lemmas on `init` -/

theorem throughFirst_initial_segment (p : Action → Bool) (l : List Action) :
    throughFirst p l <+: l := by
  induction l with
  | nil => simp [throughFirst]
  | cons a rest ih =>
    by_cases h : p a = true
    · simp [throughFirst, h]
    · simp only [throughFirst, h, Bool.false_eq_true, if_false]
      exact (List.prefix_cons_inj a).mpr ih

/-! ## The claims on `init` -/

/-- C8 (init result): called on an object whose thread member owns no thread,
`init` returns true exactly when every driver call succeeds and false
otherwise; the calls it makes are the steps of the source in order up to and
including the first failing one, each made once, and nothing after it; and
the worker thread is started exactly when `init` returns true. -/
theorem init_result (sys : System) (o : DriverOutcomes) (hw : sys.self.worker = none) :
    ((init sys o).ret = some true ↔ o.allSucceed) ∧
    ((init sys o).ret = some false ↔ ¬ o.allSucceed) ∧
    (init sys o).sys.trace = sys.trace ++ throughFirst Action.failed (initSteps o) ∧
    throughFirst Action.failed (initSteps o) <+: initSteps o ∧
    (Action.thread_start ∈ throughFirst Action.failed (initSteps o) ↔
      (init sys o).ret = some true) ∧
    ((init sys o).sys.self.worker.isSome = true ↔ (init sys o).ret = some true) := by
  refine ⟨?_, ?_, ?_, throughFirst_initial_segment _ _, ?_, ?_⟩ <;>
  · by_cases h1 : o.freenect_init < 0
    · simp [init, DriverOutcomes.allSucceed, initSteps, throughFirst, Action.failed, h1, hw]
    by_cases h2 : o.freenect_num_devices < 1
    · simp [init, DriverOutcomes.allSucceed, initSteps, throughFirst, Action.failed, h1, h2, hw]
    by_cases h3 : o.freenect_open_device < 0
    · simp [init, DriverOutcomes.allSucceed, initSteps, throughFirst, Action.failed, h1, h2, h3,
        hw]
    by_cases h4 : o.video_mode_valid = true
    swap
    · simp [init, DriverOutcomes.allSucceed, initSteps, throughFirst, Action.failed, h1, h2, h3,
        h4, hw]
    by_cases h5 : o.depth_mode_valid = true
    swap
    · simp [init, DriverOutcomes.allSucceed, initSteps, throughFirst, Action.failed, h1, h2, h3,
        h4, h5, hw]
    by_cases h6 : o.freenect_start_video < 0
    · simp [init, DriverOutcomes.allSucceed, initSteps, throughFirst, Action.failed, h1, h2, h3,
        h4, h5, h6, hw]
    by_cases h7 : o.freenect_start_depth < 0
    · simp [init, DriverOutcomes.allSucceed, initSteps, throughFirst, Action.failed, h1, h2, h3,
        h4, h5, h6, h7, hw]
    · simp [init, DriverOutcomes.allSucceed, initSteps, throughFirst, Action.failed, h1, h2, h3,
        h4, h5, h6, h7, hw]
      try omega

/-- Witness of C8: on the fresh object, once with every call succeeding and
once with the depth stream failing to start. -/
theorem init_result_witness :
    System.new.self.worker = none ∧
    ((init System.new okOutcomes).ret = some true ↔ okOutcomes.allSucceed) ∧
    ((init System.new depthStartFails).ret = some false ↔ ¬ depthStartFails.allSucceed) ∧
    (init System.new depthStartFails).sys.trace =
      System.new.trace ++ throughFirst Action.failed (initSteps depthStartFails) :=
  ⟨rfl, (init_result System.new okOutcomes rfl).1,
    (init_result System.new depthStartFails rfl).2.1,
    (init_result System.new depthStartFails rfl).2.2.1⟩

/-- C5, the claim as stated fails: the video stream starts, the depth stream
does not; `init` returns false, its calls contain no `freenect_stop_video`,
and the driver session at return still has the video stream running. -/
theorem init_depth_start_failure_keeps_video :
    (init System.new depthStartFails).ret = some false ∧
    0 ≤ depthStartFails.freenect_start_video ∧
    depthStartFails.freenect_start_depth < 0 ∧
    Action.freenect_stop_video ∉ (init System.new depthStartFails).sys.trace ∧
    (driverAfter (init System.new depthStartFails).sys.trace).video_on = true := by
  decide

/-- C5 as amended: when every step before the stream starts succeeds and a
stream fails to start, `init` on the fresh object returns false right after
the failing start call and makes no stop or close call; when it is the depth
stream that failed, the video stream is still running in the driver session
at return.  The object keeps the handle and the context, and a following
`shutdown` stops the streams and closes the session without a fault. -/
theorem init_start_failure_no_unwind (o : DriverOutcomes) (pe : ProcessOutcome)
    (hpre : 0 ≤ o.freenect_init ∧ 1 ≤ o.freenect_num_devices ∧ 0 ≤ o.freenect_open_device ∧
      o.video_mode_valid = true ∧ o.depth_mode_valid = true)
    (hfail : o.freenect_start_video < 0 ∨ o.freenect_start_depth < 0) :
    (init System.new o).ret = some false ∧
    (init System.new o).sys.trace = throughFirst Action.failed (initSteps o) ∧
    (∀ a ∈ (init System.new o).sys.trace, a.isStopOrClose = false) ∧
    (0 ≤ o.freenect_start_video →
      (init System.new o).sys.trace.getLast? =
        some (.freenect_start_depth o.freenect_start_depth) ∧
      (driverAfter (init System.new o).sys.trace).video_on = true) ∧
    (init System.new o).sys.self.dev = .handle ∧
    (init System.new o).sys.self.ctx = .handle ∧
    (driverAfter (shutdown (init System.new o).sys pe).trace).closed = true ∧
    (driverAfter (shutdown (init System.new o).sys pe).trace).fault = false := by
  obtain ⟨h1, h2, h3, h4, h5⟩ := hpre
  have n1 : ¬ o.freenect_init < 0 := by omega
  have n2 : ¬ o.freenect_num_devices < 1 := by omega
  have n3 : ¬ o.freenect_open_device < 0 := by omega
  by_cases h6 : o.freenect_start_video < 0
  · simp [init, initSteps, throughFirst, Action.failed, Action.isStopOrClose, System.new,
      KinectDevice.new, shutdown, join, workerStep, driverAfter, Driver.step, Driver.initial,
      Driver.closed, n1, n2, n3, h4, h5, h6]
  · have h7 : o.freenect_start_depth < 0 := by
      rcases hfail with h | h
      · exact absurd h h6
      · exact h
    simp [init, initSteps, throughFirst, Action.failed, Action.isStopOrClose, System.new,
      KinectDevice.new, shutdown, join, workerStep, driverAfter, Driver.step, Driver.initial,
      Driver.closed, n1, n2, n3, h4, h5, h6, h7]

/-- Witness of the amended C5: the depth stream fails to start. -/
theorem init_start_failure_no_unwind_witness :
    (init System.new depthStartFails).ret = some false ∧
    (init System.new depthStartFails).sys.trace =
      throughFirst Action.failed (initSteps depthStartFails) ∧
    (driverAfter (shutdown (init System.new depthStartFails).sys quietProcess).trace).closed
      = true :=
  have h := init_start_failure_no_unwind depthStartFails quietProcess
    (by decide) (by decide)
  ⟨h.1, h.2.1, h.2.2.2.2.2.2.1⟩

/-! ## Lemmas on `loop` -/

/-- One iteration, spelled out: leave at the check when the flag is set,
leave after the call when it fails, otherwise sleep and come back to the
check. -/
theorem loopIter_eq (stop_thread : Bool) (ret : Int) :
    loopIter stop_thread ret =
      if stop_thread then (.exited, [.check_stop true])
      else if ret < 0 then (.exited, [.check_stop false, .freenect_process_events ret])
      else (.check, [.check_stop false, .freenect_process_events ret, .sleep]) := by
  cases stop_thread
  · by_cases h : ret < 0 <;> simp [loopIter, loopStep, h]
  · simp [loopIter, loopStep]

/-- The loop is the repetition of its iteration for as long as the iteration
comes back to the check. -/
theorem loop_cons (x : Bool × Int) (rest : List (Bool × Int)) :
    loop (x :: rest) =
      if (loopIter x.1 x.2).1 = .exited then (iterActions x, true)
      else (iterActions x ++ (loop rest).1, (loop rest).2) := by
  obtain ⟨stop, ret⟩ := x
  cases stop
  · by_cases h : ret < 0 <;> simp [loop, iterActions, loopIter_eq, h]
  · simp [loop, iterActions, loopIter_eq]

theorem loopIter_keeps {x : Bool × Int} (h : keepsLooping x) :
    loopIter x.1 x.2 = (.check, [.check_stop false, .freenect_process_events x.2, .sleep]) := by
  obtain ⟨h1, h2⟩ := h
  have h3 : ¬ x.2 < 0 := by omega
  simp [loopIter_eq, h1, h3]

theorem loop_append_keeps (pre rest : List (Bool × Int)) (hpre : ∀ x ∈ pre, keepsLooping x) :
    loop (pre ++ rest) = (allIterActions pre ++ (loop rest).1, (loop rest).2) := by
  induction pre with
  | nil => simp [allIterActions]
  | cons x pre ih =>
    have hx : keepsLooping x := hpre x (List.mem_cons_self _ _)
    have ih2 := ih (fun y hy => hpre y (List.mem_cons_of_mem _ hy))
    rw [List.cons_append, loop_cons, ih2, loopIter_keeps hx]
    simp [allIterActions]

theorem allIterActions_counts (pre : List (Bool × Int)) (hpre : ∀ x ∈ pre, keepsLooping x) :
    ((allIterActions pre).filter Action.isProcessEvents).length = pre.length ∧
    ((allIterActions pre).filter Action.isCheckStop).length = pre.length := by
  induction pre with
  | nil => simp [allIterActions]
  | cons x pre ih =>
    have hx : keepsLooping x := hpre x (List.mem_cons_self _ _)
    obtain ⟨ih1, ih2⟩ := ih (fun y hy => hpre y (List.mem_cons_of_mem _ hy))
    have hi : iterActions x = [.check_stop false, .freenect_process_events x.2, .sleep] := by
      simp [iterActions, loopIter_keeps hx]
    simp [allIterActions, hi, List.filter_cons, Action.isProcessEvents, Action.isCheckStop,
      ih1, ih2]

/-! ## The claim on `loop` -/

/-- C10 (event pump loop).  Per iteration: the stop flag is checked once, as
the first action; `freenect_process_events` is called once when the check saw
the flag unset and not at all when it saw it set; the iteration leaves the
loop exactly when the flag was seen set or the call returned a negative value,
and otherwise comes back to the check.  For the loop: after iterations `pre`
that give no reason to leave, an iteration that sees the flag set or a
negative return ends the loop, whatever would follow (`post`) is not
performed, and there have been one check per iteration and one call per
iteration that saw the flag unset; while no iteration gives a reason to leave,
the loop has not returned; with the flag set at the first check no call is
made. -/
theorem loop_behaviour (pre post : List (Bool × Int)) (stop_thread : Bool) (ret : Int)
    (hpre : ∀ x ∈ pre, keepsLooping x) (hexit : stop_thread = true ∨ ret < 0) :
    (∀ (s : Bool) (r : Int),
      (iterActions (s, r)).head? = some (.check_stop s) ∧
      ((iterActions (s, r)).filter Action.isCheckStop).length = 1 ∧
      (iterActions (s, r)).filter Action.isProcessEvents =
        (if s then [] else [.freenect_process_events r]) ∧
      ((loopIter s r).1 = .exited ↔ (s = true ∨ r < 0)) ∧
      ((loopIter s r).1 ≠ .exited → (loopIter s r).1 = .check)) ∧
    loop (pre ++ (stop_thread, ret) :: post) =
      (allIterActions pre ++ iterActions (stop_thread, ret), true) ∧
    loop pre = (allIterActions pre, false) ∧
    ((loop (pre ++ (stop_thread, ret) :: post)).1.filter Action.isProcessEvents).length =
      pre.length + (if stop_thread then 0 else 1) ∧
    ((loop (pre ++ (stop_thread, ret) :: post)).1.filter Action.isCheckStop).length =
      pre.length + 1 ∧
    (stop_thread = false →
      (loop (pre ++ (stop_thread, ret) :: post)).1.getLast? =
        some (.freenect_process_events ret)) ∧
    (loop ((true, ret) :: post)).1.filter Action.isProcessEvents = [] := by
  have hiter : ∀ (s : Bool) (r : Int),
      (iterActions (s, r)).head? = some (.check_stop s) ∧
      ((iterActions (s, r)).filter Action.isCheckStop).length = 1 ∧
      (iterActions (s, r)).filter Action.isProcessEvents =
        (if s then [] else [.freenect_process_events r]) ∧
      ((loopIter s r).1 = .exited ↔ (s = true ∨ r < 0)) ∧
      ((loopIter s r).1 ≠ .exited → (loopIter s r).1 = .check) := by
    intro s r
    cases s
    · by_cases h : r < 0 <;>
        simp [iterActions, loopIter_eq, h, Action.isCheckStop, Action.isProcessEvents,
          List.filter_cons]
    · simp [iterActions, loopIter_eq, Action.isCheckStop, Action.isProcessEvents,
        List.filter_cons]
  have hex : (loopIter stop_thread ret).1 = .exited := ((hiter stop_thread ret).2.2.2.1).mpr hexit
  have hwhole : loop (pre ++ (stop_thread, ret) :: post) =
      (allIterActions pre ++ iterActions (stop_thread, ret), true) := by
    rw [loop_append_keeps pre _ hpre, loop_cons]
    simp [hex]
  have hcount := allIterActions_counts pre hpre
  refine ⟨hiter, hwhole, ?_, ?_, ?_, ?_, ?_⟩
  · have := loop_append_keeps pre [] hpre
    simpa [loop] using this
  · rw [hwhole]
    simp only [List.filter_append, List.length_append, hcount.1, (hiter stop_thread ret).2.2.1]
    cases stop_thread <;> simp
  · rw [hwhole]
    simp only [List.filter_append, List.length_append, hcount.2, (hiter stop_thread ret).2.1]
  · intro hs
    have hr : ret < 0 := by
      rcases hexit with h | h
      · rw [hs] at h; exact absurd h (by decide)
      · exact h
    rw [hwhole]
    simp [iterActions, loopIter_eq, hs, hr]
  · simp [loop, Action.isProcessEvents]

/-- Witness of C10: two iterations that go on, a third whose call fails, and
a fourth that is never performed. -/
theorem loop_behaviour_witness :
    loop ([(false, 0), (false, 3)] ++ (false, -1) :: [(false, 2)]) =
      (allIterActions [(false, 0), (false, 3)] ++ iterActions (false, -1), true) ∧
    ((loop ([(false, 0), (false, 3)] ++ (false, -1) :: [(false, 2)])).1.filter
      Action.isProcessEvents).length = [(false, (0 : Int)), (false, 3)].length + 1 :=
  have h := loop_behaviour [(false, 0), (false, 3)] [(false, 2)] false (-1)
    (by simp [keepsLooping]) (by decide)
  ⟨h.2.1, h.2.2.2.1⟩

/-! ## Lemmas on the worker thread and `shutdown` -/

theorem runCallbacks_fields (user : Ptr) (cbs : List Callback) : ∀ self : KinectDevice,
    (runCallbacks user self cbs).ctx = self.ctx ∧
    (runCallbacks user self cbs).dev = self.dev ∧
    (runCallbacks user self cbs).worker = self.worker ∧
    (runCallbacks user self cbs).stop_thread = self.stop_thread := by
  induction cbs with
  | nil => intro self; exact ⟨rfl, rfl, rfl, rfl⟩
  | cons cb rest ih =>
    intro self
    rw [runCallbacks_cons]
    obtain ⟨h1, h2, h3, h4⟩ := ih (Callback.run user self cb)
    rw [h1, h2, h3, h4]
    cases cb <;> cases user <;> exact ⟨rfl, rfl, rfl, rfl⟩

theorem loopStep_isPump (pc : PumpPc) (stop_thread : Bool) (ret : Int) :
    ∀ a ∈ (loopStep pc stop_thread ret).2, a.isPump = true := by
  cases pc <;> cases stop_thread <;> by_cases h : ret < 0 <;>
    simp [loopStep, h, Action.isPump]

theorem workerStep_none (sys : System) (pe : ProcessOutcome) (h : sys.self.worker = none) :
    workerStep sys pe = sys := by
  simp [workerStep, h]

theorem workerStep_some (sys : System) (pe : ProcessOutcome) (pc : PumpPc)
    (h : sys.self.worker = some pc) :
    workerStep sys pe =
      { self := { (if pc = .process then runCallbacks (userPtr sys.trace) sys.self pe.callbacks
                    else sys.self) with
                  worker := some (loopStep pc sys.self.stop_thread pe.ret).1 },
        trace := sys.trace ++ (loopStep pc sys.self.stop_thread pe.ret).2 } := by
  simp [workerStep, h]

/-- A worker step touches neither the pointers nor the stop flag, moves the
thread by one program point, and adds only pump actions to the trace. -/
theorem workerStep_spec (sys : System) (pe : ProcessOutcome) :
    (workerStep sys pe).self.ctx = sys.self.ctx ∧
    (workerStep sys pe).self.dev = sys.self.dev ∧
    (workerStep sys pe).self.stop_thread = sys.self.stop_thread ∧
    (workerStep sys pe).self.worker =
      sys.self.worker.map (fun pc => (loopStep pc sys.self.stop_thread pe.ret).1) ∧
    ∃ w, (∀ a ∈ w, a.isPump = true) ∧ (workerStep sys pe).trace = sys.trace ++ w := by
  cases hw : sys.self.worker with
  | none =>
    rw [workerStep_none sys pe hw]
    exact ⟨rfl, rfl, rfl, by simp [hw], [], by simp, by simp⟩
  | some pc =>
    rw [workerStep_some sys pe pc hw]
    obtain ⟨h1, h2, _, h4⟩ := runCallbacks_fields (userPtr sys.trace) pe.callbacks sys.self
    refine ⟨?_, ?_, ?_, rfl, (loopStep pc sys.self.stop_thread pe.ret).2,
      loopStep_isPump _ _ _, rfl⟩
    · by_cases hp : pc = .process <;> simp [hp, h1]
    · by_cases hp : pc = .process <;> simp [hp, h2]
    · by_cases hp : pc = .process <;> simp [hp, h4]

/-- With the stop flag set the loop has returned after three program points,
from wherever it stood. -/
theorem loopStep_thrice_exits (pc : PumpPc) (ret : Int) :
    (loopStep (loopStep (loopStep pc true ret).1 true ret).1 true ret).1 = .exited := by
  cases pc <;> by_cases h : ret < 0 <;> simp [loopStep, h]

theorem Driver.step_pump (d : Driver) (a : Action) (h : a.isPump = true) :
    Driver.step d a = d := by
  cases a <;> simp_all [Action.isPump, Driver.step]

theorem driverAfter_append (t w : List Action) :
    driverAfter (t ++ w) = w.foldl Driver.step (driverAfter t) := by
  simp [driverAfter, List.foldl_append]

theorem foldl_step_pump (w : List Action) (h : ∀ a ∈ w, a.isPump = true) :
    ∀ d : Driver, w.foldl Driver.step d = d := by
  induction w with
  | nil => intro d; rfl
  | cons a rest ih =>
    intro d
    rw [List.foldl_cons, Driver.step_pump d a (h a (List.mem_cons_self _ _))]
    exact ih (fun b hb => h b (List.mem_cons_of_mem _ hb)) d

theorem isPump_not_stopOrClose (a : Action) (h : a.isPump = true) : a.isStopOrClose = false := by
  cases a <;> simp_all [Action.isPump, Action.isStopOrClose]

/-- What the join in `shutdown` does to a thread member that owns a thread,
once the flag is set: pump actions, then the join; the loop has returned
before the join does. -/
theorem join_spec (sys : System) (pe : ProcessOutcome) (hs : sys.self.stop_thread = true)
    (hw : sys.self.worker.isSome = true) :
    (join sys pe).self.ctx = sys.self.ctx ∧
    (join sys pe).self.dev = sys.self.dev ∧
    (join sys pe).self.stop_thread = true ∧
    (join sys pe).self.worker = none ∧
    (workerStep (workerStep (workerStep sys pe) pe) pe).self.worker = some .exited ∧
    ∃ w, (∀ a ∈ w, a.isPump = true) ∧ (join sys pe).trace = sys.trace ++ w ++ [.join] := by
  obtain ⟨a1, a2, a3, a4, w1, p1, t1⟩ := workerStep_spec sys pe
  obtain ⟨b1, b2, b3, b4, w2, p2, t2⟩ := workerStep_spec (workerStep sys pe) pe
  obtain ⟨c1, c2, c3, c4, w3, p3, t3⟩ := workerStep_spec (workerStep (workerStep sys pe) pe) pe
  obtain ⟨pc, hpc⟩ := Option.isSome_iff_exists.mp hw
  have hexit : (workerStep (workerStep (workerStep sys pe) pe) pe).self.worker = some .exited := by
    rw [c4, b4, a4, b3, a3, hs, hpc]
    simp [loopStep_thrice_exits]
  refine ⟨?_, ?_, ?_, rfl, hexit, w1 ++ w2 ++ w3, ?_, ?_⟩
  · show (workerStep (workerStep (workerStep sys pe) pe) pe).self.ctx = _
    rw [c1, b1, a1]
  · show (workerStep (workerStep (workerStep sys pe) pe) pe).self.dev = _
    rw [c2, b2, a2]
  · show (workerStep (workerStep (workerStep sys pe) pe) pe).self.stop_thread = _
    rw [c3, b3, a3, hs]
  · intro a ha
    simp only [List.mem_append] at ha
    rcases ha with (h | h) | h
    · exact p1 a h
    · exact p2 a h
    · exact p3 a h
  · show (workerStep (workerStep (workerStep sys pe) pe) pe).trace ++ [Action.join] = _
    rw [t3, t2, t1]
    simp [List.append_assoc]

/-- One worker step of a thread member that owns a thread: the action and the
next program point are those of `loopStep`, and the stop flag is not
touched. -/
theorem workerStep_step (sys : System) (pe : ProcessOutcome) (pc : PumpPc)
    (h : sys.self.worker = some pc) :
    (workerStep sys pe).trace = sys.trace ++ (loopStep pc sys.self.stop_thread pe.ret).2 ∧
    (workerStep sys pe).self.worker = some (loopStep pc sys.self.stop_thread pe.ret).1 ∧
    (workerStep sys pe).self.stop_thread = sys.self.stop_thread := by
  obtain ⟨_, _, a3, a4, _⟩ := workerStep_spec sys pe
  refine ⟨?_, ?_, a3⟩
  · rw [workerStep_some sys pe pc h]
  · rw [a4, h]; rfl

/-- With the stop flag set, the three worker steps of the join perform
exactly what is left of `loop`. -/
theorem drain_trace (sys : System) (pe : ProcessOutcome)
    (hs : sys.self.stop_thread = true) :
    (workerStep (workerStep (workerStep sys pe) pe) pe).trace =
      sys.trace ++ drainActions sys.self.worker pe.ret := by
  cases hw : sys.self.worker with
  | none =>
    rw [workerStep_none sys pe hw, workerStep_none sys pe hw, workerStep_none sys pe hw]
    simp [drainActions]
  | some pc =>
    obtain ⟨t1, w1, f1⟩ := workerStep_step sys pe pc hw
    obtain ⟨t2, w2, f2⟩ := workerStep_step (workerStep sys pe) pe _ w1
    obtain ⟨t3, _, _⟩ := workerStep_step (workerStep (workerStep sys pe) pe) pe _ w2
    rw [t3, t2, t1, f2, f1, hs]
    cases pc <;> by_cases h : pe.ret < 0 <;> simp [loopStep, drainActions, h]

theorem pumpPcOf_append (t w : List Action) :
    pumpPcOf (t ++ w) = w.foldl pcStep (pumpPcOf t) := by
  simp [pumpPcOf, List.foldl_append]

/-- A worker step keeps the trace an exact record of the program point of the
worker thread. -/
theorem workerStep_pumpPcOf (sys : System) (pe : ProcessOutcome)
    (h : pumpPcOf sys.trace = sys.self.worker) :
    pumpPcOf (workerStep sys pe).trace = (workerStep sys pe).self.worker := by
  cases hw : sys.self.worker with
  | none => rw [workerStep_none sys pe hw, h, hw]
  | some pc =>
    obtain ⟨t1, w1, _⟩ := workerStep_step sys pe pc hw
    rw [t1, w1, pumpPcOf_append, h, hw]
    cases pc <;> cases sys.self.stop_thread <;> by_cases hr : pe.ret < 0 <;>
      simp [loopStep, pcStep, hr]

/-- When `init` returns true every driver call has succeeded. -/
theorem allSucceed_of_init_true (sys : System) (o : DriverOutcomes)
    (h : (init sys o).ret = some true) : o.allSucceed := by
  by_contra hn
  have hf : (init sys o).ret = some false := by
    by_cases h1 : o.freenect_init < 0
    · simp [init, h1]
    by_cases h2 : o.freenect_num_devices < 1
    · simp [init, h1, h2]
    by_cases h3 : o.freenect_open_device < 0
    · simp [init, h1, h2, h3]
    by_cases h4 : o.video_mode_valid = true
    swap
    · simp [init, h1, h2, h3, h4]
    by_cases h5 : o.depth_mode_valid = true
    swap
    · simp [init, h1, h2, h3, h4, h5]
    by_cases h6 : o.freenect_start_video < 0
    · simp [init, h1, h2, h3, h4, h5, h6]
    by_cases h7 : o.freenect_start_depth < 0
    · simp [init, h1, h2, h3, h4, h5, h6, h7]
    · exact absurd ⟨by omega, by omega, by omega, h4, h5, by omega, by omega⟩ hn
  rw [hf] at h
  exact absurd h (by decide)

/-- After a successful `init` on the fresh object the trace records the
worker thread at the stop check, where the thread member has it. -/
theorem init_pumpPcOf (o : DriverOutcomes) (h : (init System.new o).ret = some true) :
    pumpPcOf (init System.new o).sys.trace = (init System.new o).sys.self.worker := by
  obtain ⟨h1, h2, h3, h4, h5, h6, h7⟩ := allSucceed_of_init_true _ o h
  have n1 : ¬ o.freenect_init < 0 := by omega
  have n2 : ¬ o.freenect_num_devices < 1 := by omega
  have n3 : ¬ o.freenect_open_device < 0 := by omega
  have n6 : ¬ o.freenect_start_video < 0 := by omega
  have n7 : ¬ o.freenect_start_depth < 0 := by omega
  simp [init, System.new, KinectDevice.new, n1, n2, n3, h4, h5, n6, n7, pumpPcOf, pcStep]

theorem run_pumpPcOf (steps : List Step) : ∀ sys : System,
    pumpPcOf sys.trace = sys.self.worker →
    pumpPcOf (run sys steps).trace = (run sys steps).self.worker := by
  induction steps with
  | nil => intro sys h; exact h
  | cons step rest ih =>
    intro sys h
    refine ih (Step.run sys step) ?_
    cases step with
    | worker pe => exact workerStep_pumpPcOf sys pe h
    | grab rgb depth =>
      show pumpPcOf sys.trace = (grabFrames sys.self rgb depth).self.worker
      rw [h]
      unfold grabFrames
      split <;> rfl

/-- Once the flag is set and what is left of `loop` is performed, the trace
records the worker thread after the loop. -/
theorem pumpPcOf_drained (t : List Action) (pc : PumpPc) (ret : Int)
    (h : pumpPcOf t = some pc) :
    pumpPcOf (t ++ [.set_stop] ++ drainActions (some pc) ret) = some .exited := by
  rw [pumpPcOf_append, pumpPcOf_append, h]
  cases pc <;> by_cases hr : ret < 0 <;> simp [drainActions, pcStep, hr]

/-- What is left of `loop` once the flag is set has no stop check that sees
the flag unset, at most one `freenect_process_events` call, and pump actions
only. -/
theorem drainActions_spec (t : Thread) (ret : Int) :
    Action.check_stop false ∉ drainActions t ret ∧
    ((drainActions t ret).filter Action.isProcessEvents).length ≤ 1 ∧
    (∀ a ∈ drainActions t ret, a.isPump = true) := by
  match t with
  | none => simp [drainActions]
  | some pc =>
    cases pc <;> by_cases hr : ret < 0 <;>
      simp [drainActions, hr, Action.isProcessEvents, Action.isPump, List.filter_cons]

/-- A successful `init` on the fresh object leads to a state in use. -/
theorem init_inUse (o : DriverOutcomes) (h : (init System.new o).ret = some true) :
    InUse (init System.new o).sys := by
  obtain ⟨h1, h2, h3, h4, h5, h6, h7⟩ := allSucceed_of_init_true _ o h
  have n1 : ¬ o.freenect_init < 0 := by omega
  have n2 : ¬ o.freenect_num_devices < 1 := by omega
  have n3 : ¬ o.freenect_open_device < 0 := by omega
  have n6 : ¬ o.freenect_start_video < 0 := by omega
  have n7 : ¬ o.freenect_start_depth < 0 := by omega
  simp [InUse, init, System.new, KinectDevice.new, n1, n2, n3, h4, h5, n6, n7,
    Action.isStopOrClose, driverAfter, Driver.step, Driver.initial, Driver.streaming]

/-- Every step of the worker thread or of the consumer keeps a state in
use. -/
theorem step_keeps_inUse (sys : System) (step : Step) (h : InUse sys) : InUse (Step.run sys step) := by
  obtain ⟨hc, hd, hw, hs, hno, hdrv⟩ := h
  cases step with
  | worker pe =>
    obtain ⟨a1, a2, a3, a4, w, pw, tw⟩ := workerStep_spec sys pe
    refine ⟨?_, ?_, ?_, ?_, ?_, ?_⟩
    · show (workerStep sys pe).self.ctx = _
      rw [a1, hc]
    · show (workerStep sys pe).self.dev = _
      rw [a2, hd]
    · show (workerStep sys pe).self.worker.isSome = _
      rw [a4]
      simpa using hw
    · show (workerStep sys pe).self.stop_thread = _
      rw [a3, hs]
    · show ∀ a ∈ (workerStep sys pe).trace, _
      rw [tw]
      intro a ha
      rcases List.mem_append.mp ha with h | h
      · exact hno a h
      · exact isPump_not_stopOrClose a (pw a h)
    · show driverAfter (workerStep sys pe).trace = _
      rw [tw, driverAfter_append, foldl_step_pump w pw, hdrv]
  | grab rgb depth =>
    refine ⟨?_, ?_, ?_, ?_, hno, hdrv⟩
    · show (grabFrames sys.self rgb depth).self.ctx = _
      unfold grabFrames; split <;> exact hc
    · show (grabFrames sys.self rgb depth).self.dev = _
      unfold grabFrames; split <;> exact hd
    · show (grabFrames sys.self rgb depth).self.worker.isSome = _
      unfold grabFrames; split <;> exact hw
    · show (grabFrames sys.self rgb depth).self.stop_thread = _
      unfold grabFrames; split <;> exact hs

theorem run_inUse (steps : List Step) : ∀ sys : System, InUse sys → InUse (run sys steps) := by
  induction steps with
  | nil => intro sys h; exact h
  | cons step rest ih =>
    intro sys h
    exact ih (Step.run sys step) (step_keeps_inUse sys step h)

/-- The first `shutdown` of a state in use: the stop flag is set, the worker
finishes with pump actions only, then come the join and the four teardown
calls; the thread member owns no thread afterwards. -/
theorem shutdown_inUse (sys : System) (pe : ProcessOutcome) (h : InUse sys) :
    ∃ w, (∀ a ∈ w, a.isPump = true) ∧
      (shutdown sys pe).trace = sys.trace ++ [.set_stop] ++ w ++ .join :: teardownCalls ∧
      (shutdown sys pe).self.worker = none := by
  obtain ⟨hc, hd, hw, _, _, _⟩ := h
  obtain ⟨j1, j2, _, j4, _, w, pw, jt⟩ :=
    join_spec ⟨{ sys.self with stop_thread := true }, sys.trace ++ [.set_stop]⟩ pe rfl hw
  simp only at j1 j2 j4 jt
  have k1 := j1.trans hc
  have k2 := j2.trans hd
  refine ⟨w, pw, ?_, ?_⟩
  · simp only [shutdown, hw, if_true, k1, k2, jt, teardownCalls]
    simp
  · simp only [shutdown, hw, if_true, k1, k2, j4]

/-- The first `shutdown` of a state in use, action by action: between the
store of the stop flag and the join the worker performs exactly what is left
of `loop`. -/
theorem shutdown_inUse_trace (sys : System) (pe : ProcessOutcome) (h : InUse sys) :
    (shutdown sys pe).trace =
      sys.trace ++ [.set_stop] ++ drainActions sys.self.worker pe.ret ++
        .join :: teardownCalls := by
  obtain ⟨hc, hd, hw, _, _, _⟩ := h
  obtain ⟨j1, j2, _, _, _, _⟩ :=
    join_spec ⟨{ sys.self with stop_thread := true }, sys.trace ++ [.set_stop]⟩ pe rfl hw
  have jt : (join ⟨{ sys.self with stop_thread := true }, sys.trace ++ [.set_stop]⟩ pe).trace =
      sys.trace ++ [.set_stop] ++ drainActions sys.self.worker pe.ret ++ [.join] := by
    show (workerStep (workerStep (workerStep _ pe) pe) pe).trace ++ [Action.join] = _
    rw [drain_trace _ pe rfl]
  simp only at j1 j2 jt
  have k1 := j1.trans hc
  have k2 := j2.trans hd
  simp only [shutdown, hw, if_true, k1, k2, jt, teardownCalls]
  simp

/-- Up to the return of the join the worker performs exactly what is left of
`loop` once the flag is set. -/
theorem atJoin_trace (sys : System) (pe : ProcessOutcome) :
    (atJoin sys pe).trace =
      sys.trace ++ [.set_stop] ++ drainActions sys.self.worker pe.ret := by
  unfold atJoin
  rw [drain_trace _ pe rfl]

/-- The first `shutdown` of a state in use, as a whole: the join returns in
the state `atJoin`, in which `loop` has returned and the flag is set; the
thread object is released and the four teardown calls follow. -/
theorem shutdown_inUse_eq (sys : System) (pe : ProcessOutcome) (h : InUse sys) :
    (atJoin sys pe).self.worker = some .exited ∧
    (atJoin sys pe).self.stop_thread = true ∧
    shutdown sys pe =
      { self := { (atJoin sys pe).self with worker := none },
        trace := (atJoin sys pe).trace ++ .join :: teardownCalls } := by
  obtain ⟨hc, hd, hw, _, _, _⟩ := h
  obtain ⟨j1, j2, j3, _, j5, _⟩ :=
    join_spec ⟨{ sys.self with stop_thread := true }, sys.trace ++ [.set_stop]⟩ pe rfl hw
  have hjoin : join ⟨{ sys.self with stop_thread := true }, sys.trace ++ [.set_stop]⟩ pe =
      { self := { (atJoin sys pe).self with worker := none },
        trace := (atJoin sys pe).trace ++ [.join] } := rfl
  simp only at j1 j2
  have k1 := j1.trans hc
  have k2 := j2.trans hd
  refine ⟨j5, ?_, ?_⟩
  · exact j3
  · simp only [shutdown, hw, if_true, k1, k2]
    rw [hjoin]
    simp [teardownCalls]

/-- After any `shutdown` the thread member owns no thread and the stop flag
is set. -/
theorem shutdown_self_fields (sys : System) (pe : ProcessOutcome) :
    (shutdown sys pe).self.worker = none ∧ (shutdown sys pe).self.stop_thread = true := by
  cases hw : sys.self.worker with
  | none =>
    simp only [shutdown, hw, Option.isSome_none, Bool.false_eq_true, if_false]
    constructor <;> (split <;> split <;> simp [hw])
  | some pc =>
    have hsome : sys.self.worker.isSome = true := by simp [hw]
    obtain ⟨_, _, j3, j4, _, _⟩ :=
      join_spec ⟨{ sys.self with stop_thread := true }, sys.trace ++ [.set_stop]⟩ pe rfl hsome
    simp only at j3 j4
    simp only [shutdown, hw, Option.isSome_some, if_true]
    rw [hw] at j3 j4
    constructor <;> (split <;> split <;> simp [j3, j4])

/-- A `shutdown` of an object whose thread member owns no thread and whose
stop flag is set leaves the object as it is. -/
theorem shutdown_self_of_stopped (sys : System) (pe : ProcessOutcome)
    (hw : sys.self.worker = none) (hs : sys.self.stop_thread = true) :
    (shutdown sys pe).self = sys.self := by
  obtain ⟨self, trace⟩ := sys
  obtain ⟨ctx, dev, rgb_, depth_, new_rgb, new_depth, worker, stop_thread⟩ := self
  simp only at hw hs
  subst hw hs
  simp only [shutdown, Option.isSome_none, Bool.false_eq_true, if_false]
  split <;> split <;> rfl

/-- In a trace that splits into a part without stop or close calls and a part
without `freenect_process_events` calls, every `freenect_process_events` call
comes before every stop or close call. -/
theorem process_before_teardown (t1 t2 : List Action)
    (h1 : ∀ a ∈ t1, a.isStopOrClose = false) (h2 : ∀ a ∈ t2, a.isProcessEvents = false)
    (i j : Nat) (a b : Action) (hi : (t1 ++ t2)[i]? = some a) (hj : (t1 ++ t2)[j]? = some b)
    (ha : a.isProcessEvents = true) (hb : b.isStopOrClose = true) : i < j := by
  by_contra hlt
  have hji : j ≤ i := Nat.le_of_not_lt hlt
  by_cases hil : i < t1.length
  · have hjl : j < t1.length := by omega
    rw [List.getElem?_append_left hjl] at hj
    have hmem : b ∈ t1 := List.getElem?_mem hj
    rw [h1 b hmem] at hb
    exact absurd hb (by decide)
  · rw [List.getElem?_append_right (by omega)] at hi
    have hmem : a ∈ t2 := List.getElem?_mem hi
    rw [h2 a hmem] at ha
    exact absurd ha (by decide)

theorem filter_not_isPump (w : List Action) (h : ∀ a ∈ w, a.isPump = true) :
    w.filter (fun a => !a.isPump) = [] := by
  rw [List.filter_eq_nil_iff]
  intro a ha
  simp [h a ha]

/-! ## The claims on `shutdown` -/

/-- C7 (teardown order): in every state reached from a successful `init` on
the fresh object by steps of the worker thread and of the consumer, the
actions of `shutdown` are, in this order: set the stop flag, join the worker,
stop the video stream, stop the depth stream, close the handle, release the
context.  The join returns in the state `atJoin`, in which `loop` has
returned (the worker stands after the `while`) and the flag is set.  Between
the store of the flag and the return of the join the worker
performs exactly what is left of `loop` from where it stands: no stop check
that sees the flag unset, at most the one `freenect_process_events` call in
flight, and at the join the trace records the worker thread after the loop,
so the loop has returned when the join returns.  In the whole trace every
`freenect_process_events` call comes before every stream stop and the close.
After `shutdown` the stop flag is set and the thread member owns no thread, so
that a worker step does nothing any more. -/
theorem shutdown_teardown_order (o : DriverOutcomes) (steps : List Step) (pe : ProcessOutcome)
    (h : (init System.new o).ret = some true) :
    ((atJoin (run (init System.new o).sys steps) pe).self.worker = some .exited) ∧
    ((atJoin (run (init System.new o).sys steps) pe).self.stop_thread = true) ∧
    (shutdown (run (init System.new o).sys steps) pe =
      { self := { (atJoin (run (init System.new o).sys steps) pe).self with worker := none },
        trace := (atJoin (run (init System.new o).sys steps) pe).trace ++
          [.join, .freenect_stop_video, .freenect_stop_depth, .freenect_close_device,
           .freenect_shutdown] }) ∧
    ((atJoin (run (init System.new o).sys steps) pe).trace =
      (run (init System.new o).sys steps).trace ++ [.set_stop] ++
        drainActions (run (init System.new o).sys steps).self.worker pe.ret) ∧
    ((shutdown (run (init System.new o).sys steps) pe).trace =
      (run (init System.new o).sys steps).trace ++ [.set_stop] ++
        drainActions (run (init System.new o).sys steps).self.worker pe.ret ++
        [.join, .freenect_stop_video, .freenect_stop_depth, .freenect_close_device,
         .freenect_shutdown]) ∧
    (pumpPcOf (run (init System.new o).sys steps).trace =
      (run (init System.new o).sys steps).self.worker) ∧
    ((run (init System.new o).sys steps).self.worker.isSome = true) ∧
    (pumpPcOf ((run (init System.new o).sys steps).trace ++ [.set_stop] ++
        drainActions (run (init System.new o).sys steps).self.worker pe.ret) =
      some .exited) ∧
    (Action.check_stop false ∉
      drainActions (run (init System.new o).sys steps).self.worker pe.ret) ∧
    (((drainActions (run (init System.new o).sys steps).self.worker pe.ret).filter
      Action.isProcessEvents).length ≤ 1) ∧
    (∃ w, (∀ a ∈ w, a.isPump = true) ∧
      (shutdown (run (init System.new o).sys steps) pe).trace =
        (run (init System.new o).sys steps).trace ++ [.set_stop] ++ w ++
          [.join, .freenect_stop_video, .freenect_stop_depth, .freenect_close_device,
           .freenect_shutdown]) ∧
    (((shutdown (run (init System.new o).sys steps) pe).trace.drop
        (run (init System.new o).sys steps).trace.length).filter (fun a => !a.isPump) =
      [.set_stop, .join, .freenect_stop_video, .freenect_stop_depth, .freenect_close_device,
       .freenect_shutdown]) ∧
    (∀ (i j : Nat) (a b : Action),
      (shutdown (run (init System.new o).sys steps) pe).trace[i]? = some a →
      (shutdown (run (init System.new o).sys steps) pe).trace[j]? = some b →
      a.isProcessEvents = true → b.isStopOrClose = true → i < j) ∧
    (shutdown (run (init System.new o).sys steps) pe).self.stop_thread = true ∧
    (shutdown (run (init System.new o).sys steps) pe).self.worker = none ∧
    (∀ pe2 : ProcessOutcome,
      workerStep (shutdown (run (init System.new o).sys steps) pe) pe2 =
        shutdown (run (init System.new o).sys steps) pe) := by
  have hin : InUse (run (init System.new o).sys steps) := run_inUse steps _ (init_inUse o h)
  have hpc : pumpPcOf (run (init System.new o).sys steps).trace =
      (run (init System.new o).sys steps).self.worker :=
    run_pumpPcOf steps _ (init_pumpPcOf o h)
  have ht := shutdown_inUse_trace _ pe hin
  obtain ⟨d1, d2, pw⟩ :=
    drainActions_spec (run (init System.new o).sys steps).self.worker pe.ret
  have hwk := (shutdown_self_fields (run (init System.new o).sys steps) pe).1
  have hst := (shutdown_self_fields (run (init System.new o).sys steps) pe).2
  have hsome := hin.2.2.1
  obtain ⟨pc, hpceq⟩ := Option.isSome_iff_exists.mp hsome
  obtain ⟨e1, e2, e3⟩ := shutdown_inUse_eq _ pe hin
  have e4 := atJoin_trace (run (init System.new o).sys steps) pe
  refine ⟨e1, e2, e3, e4, by rw [ht]; rfl, hpc, hsome, ?_, d1, d2, ⟨_, pw, by rw [ht]; rfl⟩,
    ?_, ?_, hst, hwk, fun pe2 => workerStep_none _ pe2 hwk⟩
  · rw [hpceq] at hpc ⊢
    exact pumpPcOf_drained _ pc pe.ret hpc
  · rw [ht]
    simp only [List.append_assoc, List.drop_left, List.filter_append,
      filter_not_isPump _ pw]
    rfl
  · intro i j a b hi hj ha hb
    rw [ht] at hi hj
    have hsplit : (run (init System.new o).sys steps).trace ++ [.set_stop] ++
        drainActions (run (init System.new o).sys steps).self.worker pe.ret ++
        .join :: teardownCalls =
        ((run (init System.new o).sys steps).trace ++ [.set_stop] ++
          drainActions (run (init System.new o).sys steps).self.worker pe.ret ++ [.join]) ++
          teardownCalls := by simp
    rw [hsplit] at hi hj
    refine process_before_teardown _ _ ?_ ?_ i j a b hi hj ha hb
    · intro x hx
      simp only [List.mem_append, List.mem_singleton] at hx
      rcases hx with ((hx | hx) | hx) | hx
      · exact hin.2.2.2.2.1 x hx
      · subst hx; rfl
      · exact isPump_not_stopOrClose x (pw x hx)
      · subst hx; rfl
    · intro x hx
      simp only [teardownCalls, List.mem_cons, List.mem_singleton, List.not_mem_nil,
        or_false] at hx
      rcases hx with hx | hx | hx | hx <;> (subst hx; rfl)

/-- Witness of C7: a successful `init`, a short run that leaves the worker at
its `freenect_process_events` call, then `shutdown`: the call in flight
returns, the worker sleeps, sees the flag and leaves the loop, and only then
come the join and the teardown calls. -/
theorem shutdown_teardown_order_witness :
    (init System.new okOutcomes).ret = some true ∧
    (run (init System.new okOutcomes).sys sampleSteps).self.worker = some .process ∧
    (atJoin (run (init System.new okOutcomes).sys sampleSteps) quietProcess).self.worker
      = some .exited ∧
    ((shutdown (run (init System.new okOutcomes).sys sampleSteps) quietProcess).trace =
      (run (init System.new okOutcomes).sys sampleSteps).trace ++
        [.set_stop, .freenect_process_events 0, .sleep, .check_stop true, .join,
         .freenect_stop_video, .freenect_stop_depth, .freenect_close_device,
         .freenect_shutdown]) ∧
    (pumpPcOf ((run (init System.new okOutcomes).sys sampleSteps).trace ++ [.set_stop] ++
        drainActions (run (init System.new okOutcomes).sys sampleSteps).self.worker
          quietProcess.ret) = some .exited) ∧
    (shutdown (run (init System.new okOutcomes).sys sampleSteps) quietProcess).self.stop_thread
      = true ∧
    (shutdown (run (init System.new okOutcomes).sys sampleSteps) quietProcess).self.worker
      = none :=
  have h := shutdown_teardown_order okOutcomes sampleSteps quietProcess (by decide)
  ⟨by decide, rfl, h.1, h.2.2.2.2.1.trans (by
      have hw : (run (init System.new okOutcomes).sys sampleSteps).self.worker
          = some .process := rfl
      rw [hw]
      simp [drainActions, quietProcess]),
    h.2.2.2.2.2.2.2.1, h.2.2.2.2.2.2.2.2.2.2.2.2.2.1, h.2.2.2.2.2.2.2.2.2.2.2.2.2.2.1⟩

/-- C6, the claim as stated fails: after a successful `init` the first
`shutdown` closes the session without a fault, and a second `shutdown` right
after it repeats the stop, close and release calls on the closed handle and
the released context, which is a fault. -/
theorem shutdown_twice_after_init_faults :
    (init System.new okOutcomes).ret = some true ∧
    (driverAfter (shutdown (init System.new okOutcomes).sys quietProcess).trace).fault
      = false ∧
    (shutdown (shutdown (init System.new okOutcomes).sys quietProcess) quietProcess).trace =
      (shutdown (init System.new okOutcomes).sys quietProcess).trace ++
        [.set_stop, .freenect_stop_video, .freenect_stop_depth, .freenect_close_device,
         .freenect_shutdown] ∧
    (driverAfter (shutdown (shutdown (init System.new okOutcomes).sys quietProcess)
      quietProcess).trace).fault = true := by
  decide

/-- C6 as amended.  On a device on which `init` was never called, `shutdown`
makes no driver call, once or twice in succession: no fault, the session is
closed after each call, and the second call leaves the object as the first
left it.  In a state reached from a successful `init`, one `shutdown` makes
its stop, close and release calls on the open handle and context only (no
fault) and leaves the session closed.  From any state at all, a second
`shutdown` leaves the members of the object as the first left them. -/
theorem shutdown_idempotent_amended (o : DriverOutcomes) (steps : List Step)
    (pe1 pe2 : ProcessOutcome) (h : (init System.new o).ret = some true) :
    ((shutdown System.new pe1).trace = [.set_stop] ∧
     (shutdown (shutdown System.new pe1) pe2).trace = [.set_stop, .set_stop] ∧
     (driverAfter (shutdown System.new pe1).trace).fault = false ∧
     (driverAfter (shutdown System.new pe1).trace).closed = true ∧
     (driverAfter (shutdown (shutdown System.new pe1) pe2).trace).fault = false ∧
     (driverAfter (shutdown (shutdown System.new pe1) pe2).trace).closed = true ∧
     (shutdown (shutdown System.new pe1) pe2).self = (shutdown System.new pe1).self) ∧
    ((driverAfter (shutdown (run (init System.new o).sys steps) pe1).trace).fault = false ∧
     (driverAfter (shutdown (run (init System.new o).sys steps) pe1).trace).closed = true) ∧
    (∀ sys : System, (shutdown (shutdown sys pe1) pe2).self = (shutdown sys pe1).self) := by
  have hgen : ∀ sys : System, (shutdown (shutdown sys pe1) pe2).self = (shutdown sys pe1).self :=
    fun sys => shutdown_self_of_stopped _ pe2 (shutdown_self_fields sys pe1).1
      (shutdown_self_fields sys pe1).2
  have hnew1 : (shutdown System.new pe1).trace = [.set_stop] := by
    simp [shutdown, System.new, KinectDevice.new]
  have hnew2 : (shutdown (shutdown System.new pe1) pe2).trace = [.set_stop, .set_stop] := by
    simp [shutdown, System.new, KinectDevice.new]
  have hin : InUse (run (init System.new o).sys steps) := run_inUse steps _ (init_inUse o h)
  obtain ⟨w, pw, ht, _⟩ := shutdown_inUse _ pe1 hin
  have hdrv : driverAfter (shutdown (run (init System.new o).sys steps) pe1).trace =
      (Action.join :: teardownCalls).foldl Driver.step Driver.streaming := by
    rw [ht, driverAfter_append, driverAfter_append, foldl_step_pump w pw, driverAfter_append,
      hin.2.2.2.2.2]
    rfl
  refine ⟨⟨hnew1, hnew2, ?_, ?_, ?_, ?_, hgen System.new⟩, ⟨?_, ?_⟩, hgen⟩
  · rw [hnew1]; decide
  · rw [hnew1]; decide
  · rw [hnew2]; decide
  · rw [hnew2]; decide
  · rw [hdrv]; decide
  · rw [hdrv]; decide

/-- Witness of the amended C6: a successful `init`, a short run, and two
calls of `shutdown`. -/
theorem shutdown_idempotent_amended_witness :
    (init System.new okOutcomes).ret = some true ∧
    (driverAfter (shutdown (run (init System.new okOutcomes).sys sampleSteps)
      quietProcess).trace).fault = false ∧
    (driverAfter (shutdown (run (init System.new okOutcomes).sys sampleSteps)
      quietProcess).trace).closed = true ∧
    (shutdown (shutdown System.new quietProcess) colourProcess).self =
      (shutdown System.new quietProcess).self :=
  have h := shutdown_idempotent_amended okOutcomes sampleSteps quietProcess colourProcess
    (by decide)
  ⟨by decide, h.2.1.1, h.2.1.2, h.1.2.2.2.2.2.2⟩

end Kinect
